import Mathlib

/-!
Verification of the miniscreen terminal-interaction engine.

The development shallowly embeds the Python sources:
* `consolestreaming.py` (`parse_one_keystroke`),
* `unicodestreaming.py` (`parse_one_character`),
* `unicodeio.py` (`wait_stdin_read1`),
* `miniscreen.py` (`MiniScreen` renderer / line editor),
* `minifutures.py` (`EventLoop` scheduler).

Byte callbacks are embedded as finite call traces (a list or an
indexed family of `Option` values, `none` standing for the empty
string / empty byte read that the real callback returns on timeout
or end of stream).  Terminal output is accumulated in an explicit
output string.
-/

namespace Miniscreen

/-! ## consolestreaming.py : parse_one_keystroke -/

/-- Errors raised by `parse_one_keystroke`: the four
`NotImplementedError("Need ... entry")` sites, plus the `IndexError`
that `ord(s[-1])` raises when the CSI accumulator is empty. -/
inductive KeyError where
  | needCodes (s : String)
  | needEsc (s : String)
  | needAlto (s : String)
  | needCsi (s : String)
  | indexError
deriving DecidableEq, Repr

/-- Association-list lookup, embedding Python `dict[key]` access on the
string-keyed literal tables of `parse_one_keystroke`. -/
def lookupTab (s : String) : List (String × String) → Option String
  | [] => none
  | (k, v) :: rest => if s = k then some v else lookupTab s rest

/-- The `codes` table of `parse_one_keystroke` (single control characters). -/
def codes : List (String × String) :=
  [("\x01", "CTRL-A"), ("\x02", "CTRL-B"), ("\x03", "CTRL-C"), ("\x04", "CTRL-D"),
   ("\x05", "CTRL-E"), ("\x06", "CTRL-F"), ("\x07", "CTRL-G"), ("\x08", "CTRL-H"),
   ("\t", "tab"), ("\n", "newline"), ("\x0B", "CTRL-K"), ("\x0C", "CTRL-L"),
   ("\r", "return"), ("\x0E", "CTRL-N"), ("\x0F", "CTRL-O"), ("\x10", "CTRL-P"),
   ("\x11", "CTRL-Q"), ("\x12", "CTRL-R"), ("\x13", "CTRL-S"), ("\x14", "CTRL-T"),
   ("\x15", "CTRL-U"), ("\x16", "CTRL-V"), ("\x17", "CTRL-W"), ("\x18", "CTRL-X"),
   ("\x19", "CTRL-Y"), ("\x1A", "CTRL-Z"), ("\x7f", "backspace")]

/-- The `esccodes` table (ESC followed by one non-printable character). -/
def esccodes : List (String × String) := [("\x7f", "ALT-backspace")]

/-- The `altocodes` table (`ESC O` a.k.a. SS3 sequences). -/
def altocodes : List (String × String) :=
  [("P", "F1"), ("Q", "F2"), ("R", "F3"), ("S", "F4")]

/-- The `csicodes` table (`ESC [` sequences). -/
def csicodes : List (String × String) :=
  [("A", "uparrow"), ("B", "downarrow"), ("C", "rightarrow"), ("D", "leftarrow"),
   ("F", "end"), ("H", "home"),
   ("2~", "insert"), ("3~", "delete"), ("5~", "pageup"), ("6~", "pagedown"),
   ("15~", "F5"), ("17~", "F6"), ("18~", "F7"), ("19~", "F8"),
   ("20~", "F9"), ("22~", "F10"), ("23~", "F11"), ("24~", "F12"),
   ("15;2~", "SHIFT-F5"), ("17;2~", "SHIFT-F6"), ("18;2~", "SHIFT-F7"),
   ("19;2~", "SHIFT-F8"), ("20;2~", "SHIFT-F9"), ("22;2~", "SHIFT-F10"),
   ("23;2~", "SHIFT-F11"), ("24;2~", "SHIFT-F12"),
   ("15;5~", "CTRL-F5"), ("17;5~", "CTRL-F6"), ("18;5~", "CTRL-F7"),
   ("19;5~", "CTRL-F8"), ("20;5~", "CTRL-F9"), ("21;5~", "CTRL-F10"),
   ("23;5~", "CTRL-F11"), ("24;5~", "CTRL-F12"),
   ("15;3~", "ALT-F5"), ("17;3~", "ALT-F6"), ("18;3~", "ALT-F7"),
   ("19;3~", "ALT-F8"), ("20;3~", "ALT-F9"), ("21;3~", "ALT-F10"),
   ("23;3~", "ALT-F11"), ("24;3~", "ALT-F12"),
   ("15;4~", "ALT-SHIFT-F5"), ("17;4~", "ALT-SHIFT-F6"), ("18;4~", "ALT-SHIFT-F7"),
   ("19;4~", "ALT-SHIFT-F8"), ("20;4~", "ALT-SHIFT-F9"), ("21;4~", "ALT-SHIFT-F10"),
   ("23;4~", "ALT-SHIFT-F11"), ("24;4~", "ALT-SHIFT-F12"),
   ("15;8~", "CTRL-ALT-SHIFT-F5"), ("17;8~", "CTRL-ALT-SHIFT-F6"),
   ("18;8~", "CTRL-ALT-SHIFT-F7"), ("19;8~", "CTRL-ALT-SHIFT-F8"),
   ("20;8~", "CTRL-ALT-SHIFT-F9"), ("21;8~", "CTRL-ALT-SHIFT-F10"),
   ("23;8~", "CTRL-ALT-SHIFT-F11"), ("24;8~", "CTRL-ALT-SHIFT-F12"),
   ("5;3~", "ALT-pageup"), ("6;3~", "ALT-pagedown"),
   ("5;7~", "CTRL-ALT-pageup"), ("6;7~", "CTRL-ALT-pagedown"),
   ("1;2P", "SHIFT-F1"), ("1;2Q", "SHIFT-F2"), ("1;2R", "SHIFT-F3"), ("1;2S", "SHIFT-F4"),
   ("1;5P", "CTRL-F1"), ("1;5Q", "CTRL-F2"), ("1;5R", "CTRL-F3"), ("1;5S", "CTRL-F4"),
   ("1;3P", "ALT-F1"), ("1;3Q", "ALT-F2"), ("1;3R", "ALT-F3"), ("1;3S", "ALT-F4"),
   ("1;4P", "ALT-SHIFT-F1"), ("1;4Q", "ALT-SHIFT-F2"),
   ("1;4R", "ALT-SHIFT-F3"), ("1;4S", "ALT-SHIFT-F4"),
   ("1;8P", "CTRL-ALT-SHIFT-F1"), ("1;8Q", "CTRL-ALT-SHIFT-F2"),
   ("1;8R", "CTRL-ALT-SHIFT-F3"), ("1;8S", "CTRL-ALT-SHIFT-F4"),
   ("1;6P", "CTRL-ALT-F1"), ("1;6Q", "CTRL-ALT-F2"),
   ("1;6R", "CTRL-ALT-F3"), ("1;6S", "CTRL-ALT-F4"),
   ("1;3A", "ALT-uparrow"), ("1;3B", "ALT-downarrow"),
   ("1;3C", "ALT-rightarrow"), ("1;3D", "ALT-leftarrow"),
   ("1;3F", "ALT-end"), ("1;3H", "ALT-home"),
   ("1;5A", "CTRL-uparrow"), ("1;5B", "CTRL-downarrow"),
   ("1;5C", "CTRL-rightarrow"), ("1;5D", "CTRL-leftarrow"),
   ("1;5F", "CTRL-end"), ("1;5H", "CTRL-home"),
   ("1;7F", "CTRL-ALT-end"), ("1;7H", "CTRL-ALT-home"),
   ("2;3~", "ALT-insert"), ("2;5~", "CTRL-insert"),
   ("3;2~", "SHIFT-delete"), ("3;3~", "ALT-delete"), ("3;5~", "CTRL-delete"),
   ("200~", "pastestart"), ("201~", "pasteend")]

/-- One call to the `get_next_char` callback: pop the next result from the
call trace; an exhausted trace keeps answering the empty string (`none`). -/
def popChar : List (Option Char) → Option Char × List (Option Char)
  | [] => (none, [])
  | c :: rest => (c, rest)

/-- The CSI accumulation loop of `parse_one_keystroke`:
`while 0x20 <= ord(s[-1]) < 0x3C: ss = get_next_char(); if not ss: break; s += ss`.
`last` is the last character of the accumulator `s`. -/
def csiLoop (s : String) (last : Char) (rest : List (Option Char)) : String :=
  if 0x20 ≤ last.toNat ∧ last.toNat < 0x3C then
    match rest with
    | [] => s
    | none :: _ => s
    | some c :: r => csiLoop (s.push c) c r
  else s

/-- The body of `parse_one_keystroke` after an initial ESC character. -/
def escPath (next : List (Option Char)) : Except KeyError String :=
  let (s1, r1) := popChar next
  match s1 with
  | none => .ok "escape"
  | some c1 =>
    if c1 = '[' then
      let (s2, r2) := popChar r1
      match s2 with
      | none => .error .indexError
      | some c2 =>
        let s := csiLoop (String.singleton c2) c2 r2
        match lookupTab s csicodes with
        | some t => .ok t
        | none => .error (.needCsi s)
    else if c1 = 'O' then
      let (s2, _) := popChar r1
      match s2 with
      | none => .ok "ALT-O"
      | some c2 =>
        match lookupTab (String.singleton c2) altocodes with
        | some t => .ok t
        | none => .error (.needAlto (String.singleton c2))
    else
      let o := c1.toNat
      if (32 ≤ o ∧ o < 127) ∨ 255 < o then .ok ("ALT-" ++ String.singleton c1)
      else
        match lookupTab (String.singleton c1) esccodes with
        | some t => .ok t
        | none => .error (.needEsc (String.singleton c1))

/-- Embedding of `parse_one_keystroke` from `consolestreaming.py`, with the
`get_next_char` callback embedded as the trace `next` of its results. -/
def parse_one_keystroke (first : Char) (next : List (Option Char)) :
    Except KeyError String :=
  let o := first.toNat
  if 32 ≤ o ∧ o ≠ 127 then .ok (String.singleton first)
  else if first = '\x1B' then escPath next
  else
    match lookupTab (String.singleton first) codes with
    | some t => .ok t
    | none => .error (.needCodes (String.singleton first))

example : parse_one_keystroke '\x1B'
    [some '[', some '1', some ';', some '5', some 'A'] = .ok "CTRL-uparrow" := rfl
example : parse_one_keystroke '\x1B' [some '[', some '3', some '~'] = .ok "delete" := rfl
example : parse_one_keystroke '\x1B' [some 'O', some 'P'] = .ok "F1" := rfl
example : parse_one_keystroke '\x1B' [] = .ok "escape" := rfl
example : parse_one_keystroke 'a' [] = .ok "a" := rfl
example : parse_one_keystroke '\x01' [] = .ok "CTRL-A" := rfl
example : parse_one_keystroke '\x7F' [] = .ok "backspace" := rfl

/-! ## unicodestreaming.py : parse_one_character -/

/-- The three `UnicodeDecodeError` reasons CPython's UTF-8 decoder can
report, which `parse_one_character` branches on. -/
inductive Utf8Error where
  | unexpectedEnd
  | invalidStart
  | invalidContinuation
deriving DecidableEq, Repr

/-- Lower bound for the first continuation byte of a multi-byte sequence;
narrowed for the leads `0xE0` and `0xF0` (overlong forms) per CPython. -/
def utf8Cont1Lo (b0 : Nat) : Nat :=
  if b0 = 0xE0 then 0xA0 else if b0 = 0xF0 then 0x90 else 0x80

/-- Upper bound for the first continuation byte; narrowed for the leads
`0xED` (surrogates) and `0xF4` (beyond U+10FFFF) per CPython. -/
def utf8Cont1Hi (b0 : Nat) : Nat :=
  if b0 = 0xED then 0x9F else if b0 = 0xF4 then 0x8F else 0xBF

/-- Models CPython's strict UTF-8 decoder `bytes.decode("utf-8")` as called
by `parse_one_character`: on success the list of decoded code points, on
failure the reason carried by the raised `UnicodeDecodeError`
("unexpected end of data" / "invalid start byte" /
"invalid continuation byte"). -/
def utf8Decode : List Nat → Except Utf8Error (List Nat)
  | [] => .ok []
  | b0 :: rest =>
    if b0 < 0x80 then (utf8Decode rest).map (b0 :: ·)
    else if b0 < 0xC2 then .error .invalidStart
    else if b0 < 0xE0 then
      match rest with
      | [] => .error .unexpectedEnd
      | b1 :: r =>
        if 0x80 ≤ b1 ∧ b1 ≤ 0xBF then
          (utf8Decode r).map (((b0 - 0xC0) * 0x40 + (b1 - 0x80)) :: ·)
        else .error .invalidContinuation
    else if b0 < 0xF0 then
      match rest with
      | [] => .error .unexpectedEnd
      | b1 :: r =>
        if utf8Cont1Lo b0 ≤ b1 ∧ b1 ≤ utf8Cont1Hi b0 then
          match r with
          | [] => .error .unexpectedEnd
          | b2 :: r2 =>
            if 0x80 ≤ b2 ∧ b2 ≤ 0xBF then
              (utf8Decode r2).map
                (((b0 - 0xE0) * 0x1000 + (b1 - 0x80) * 0x40 + (b2 - 0x80)) :: ·)
            else .error .invalidContinuation
        else .error .invalidContinuation
    else if b0 < 0xF5 then
      match rest with
      | [] => .error .unexpectedEnd
      | b1 :: r =>
        if utf8Cont1Lo b0 ≤ b1 ∧ b1 ≤ utf8Cont1Hi b0 then
          match r with
          | [] => .error .unexpectedEnd
          | b2 :: r2 =>
            if 0x80 ≤ b2 ∧ b2 ≤ 0xBF then
              match r2 with
              | [] => .error .unexpectedEnd
              | b3 :: r3 =>
                if 0x80 ≤ b3 ∧ b3 ≤ 0xBF then
                  (utf8Decode r3).map
                    (((b0 - 0xF0) * 0x40000 + (b1 - 0x80) * 0x1000 +
                      (b2 - 0x80) * 0x40 + (b3 - 0x80)) :: ·)
                else .error .invalidContinuation
            else .error .invalidContinuation
        else .error .invalidContinuation
    else .error .invalidStart

example : utf8Decode [0x61] = .ok [0x61] := rfl
example : utf8Decode [0xE2, 0x82, 0xAC] = .ok [0x20AC] := rfl
example : utf8Decode [0xE2, 0x82] = .error .unexpectedEnd := rfl
example : utf8Decode [0x80] = .error .invalidStart := rfl
example : utf8Decode [0xED, 0xA0, 0x80] = .error .invalidContinuation := rfl

/-- The `for i in range(10)` retry loop of `parse_one_character`.
`env i` is the result of the `i`-th call to the `get_next_byte`
callback (`none` embeds the empty read). -/
def pocLoop (env : Nat → Option Nat) : List Nat → Nat → Nat → Except Utf8Error (List Nat)
  | b, _, 0 => utf8Decode b
  | b, i, fuel + 1 =>
    match env i with
    | none => utf8Decode b
    | some bb =>
      match utf8Decode (b ++ [bb]) with
      | .ok cs => .ok cs
      | .error e =>
        if e = .unexpectedEnd then pocLoop env (b ++ [bb]) (i + 1) fuel
        else .error e

/-- Embedding of `parse_one_character` from `unicodestreaming.py`: decode one UTF-8
character starting from `b0`, fetching at most 10 further bytes from the
callback and retrying only on "unexpected end of data". -/
def parse_one_character (b0 : Nat) (env : Nat → Option Nat) :
    Except Utf8Error (List Nat) :=
  match utf8Decode [b0] with
  | .ok cs => .ok cs
  | .error e =>
    if e = .unexpectedEnd then pocLoop env [b0] 0 10
    else .error e

example :
    parse_one_character 0xE2
      (fun i => if i = 0 then some 0x82 else if i = 1 then some 0xAC else none) =
    .ok [0x20AC] := rfl
example : parse_one_character 0x41 (fun _ => none) = .ok [0x41] := rfl
example : parse_one_character 0xE2 (fun _ => none) = .error .unexpectedEnd := rfl
example : parse_one_character 0x80 (fun _ => some 0x41) = .error .invalidStart := rfl

/-! ## unicodeio.py : wait_stdin_read1 -/

/-- One call to the `get_next_byte` closure of `wait_stdin_read1`, at call
index `k`, with the timeout value the closure currently holds: when a
timeout is set, `select.select([fd], [], [], timeout)` is consulted
(`sel k` is its readiness verdict) and an unready descriptor yields the
empty read; otherwise `os.read(fd, 1)` is called directly (`rd k` is its
result, `none` embedding the empty read at end of stream). -/
def get_next_byte (timeout : Option ℚ) (sel : Nat → Bool) (rd : Nat → Option Nat)
    (k : Nat) : Option Nat :=
  match timeout with
  | some _ => if sel k then rd k else none
  | none => rd k

/-- The timeout that `wait_stdin_read1`'s closure holds at its `k`-th
call: `timeout` for the very first fetch, `extra_timeout` afterwards
(the closure's captured variable is reassigned after the first byte). -/
def waitTimeoutAt (timeout extra_timeout : Option ℚ) : Nat → Option ℚ
  | 0 => timeout
  | _ + 1 => extra_timeout

/-- Embedding of `wait_stdin_read1` from `unicodeio.py`.  Returns the decoded character
(`.ok []` embeds the empty-string "no input" return) or the decode error. -/
def wait_stdin_read1 (timeout extra_timeout : Option ℚ) (sel : Nat → Bool)
    (rd : Nat → Option Nat) : Except Utf8Error (List Nat) :=
  match get_next_byte (waitTimeoutAt timeout extra_timeout 0) sel rd 0 with
  | none => .ok []
  | some b =>
    parse_one_character b
      (fun i => get_next_byte (waitTimeoutAt timeout extra_timeout (i + 1)) sel rd (i + 1))

/-- Version of `wait_stdin_read1` with the `extra_timeout` default of `0.1` seconds
from the Python signature. -/
def wait_stdin_read1_default (timeout : Option ℚ) (sel : Nat → Bool)
    (rd : Nat → Option Nat) : Except Utf8Error (List Nat) :=
  wait_stdin_read1 timeout (some (1 / 10)) sel rd

example : wait_stdin_read1 (some 1) (some 1) (fun _ => false) (fun _ => some 65) =
    .ok [] := rfl
example : wait_stdin_read1 none (some 1) (fun _ => false) (fun _ => some 65) =
    .ok [65] := rfl

/-! ## miniscreen.py : MiniScreen

The screen model: the `_screen_lines` mirror, the `_linebuf` input buffer,
the `_cursor` offset (a Python `int`, hence `Int` here), and the stream of
bytes written to stdout accumulated in `out`. -/

structure MiniScreen where
  screen_lines : List String
  linebuf : String
  cursor : Int
  out : String
deriving Repr

/-- Embedding of `self._stdout.write(s)`. -/
def emit (st : MiniScreen) (s : String) : MiniScreen :=
  { st with out := st.out ++ s }

/-- Python index arithmetic for a slice endpoint on a string of length `n`:
negative values count from the end (clamped at 0), non-negative values are
clamped at `n`. -/
def pyIdx (n : Nat) (i : Int) : Nat :=
  if i < 0 then ((n : Int) + i).toNat else min i.toNat n

/-- Python `s[:i]`. -/
def pyTake (s : String) (i : Int) : String :=
  ⟨s.data.take (pyIdx s.length i)⟩

/-- Python `s[i:]`. -/
def pyDrop (s : String) (i : Int) : String :=
  ⟨s.data.drop (pyIdx s.length i)⟩

/-- Python `s[i]` for `0 ≤ i < len(s)`; out-of-range accesses (which would
raise `IndexError`, and never occur on the in-range indices the editor
uses) default to `'\x00'`. -/
def pyCharAt (s : String) (i : Int) : Char :=
  s.data.getD i.toNat '\x00'

/-- Python `str.isalnum` as used on line-buffer characters; modelled on
the ASCII range (the only difference with Python is non-ASCII Unicode
alphanumerics, which the model classifies as non-alphanumeric). -/
def pyIsAlnum (c : Char) : Bool :=
  ('a' ≤ c ∧ c ≤ 'z') ∨ ('A' ≤ c ∧ c ≤ 'Z') ∨ ('0' ≤ c ∧ c ≤ '9')

/-- Python `str.isspace` restricted to the ASCII whitespace characters. -/
def pyIsSpace (c : Char) : Bool :=
  c = ' ' ∨ c = '\t' ∨ c = '\n' ∨ c = '\r' ∨ c = '\x0B' ∨ c = '\x0C'

/-- The backward scan `while i > 0 and p(linebuf[i - 1]): i -= 1` shared by
the ALT-backspace and CTRL-W branches of `handle_keystroke`, written with
explicit fuel (each iteration decreases `i` by one, so `i.toNat` steps
always suffice). -/
def skipBackFuel (p : Char → Bool) (s : String) : Nat → Int → Int
  | 0, i => i
  | fuel + 1, i =>
    if 0 < i ∧ p (pyCharAt s (i - 1)) then skipBackFuel p s fuel (i - 1) else i

/-- The backward scan `while i > 0 and p(linebuf[i - 1]): i -= 1`. -/
def skipBack (p : Char → Bool) (s : String) (i : Int) : Int :=
  skipBackFuel p s i.toNat i

/-- Embedding of `MiniScreen._move_up`. -/
def move_up (st : MiniScreen) (nlines : Nat) : MiniScreen :=
  if nlines ≠ 0 then emit st ("\x1B[" ++ toString nlines ++ "A") else st

/-- Embedding of `MiniScreen._move_down`. -/
def move_down (st : MiniScreen) (nlines : Nat) : MiniScreen :=
  if nlines ≠ 0 then emit st ("\x1B[" ++ toString nlines ++ "B") else st

/-- Embedding of `MiniScreen._insert_line`. -/
def insert_line (st : MiniScreen) : MiniScreen :=
  emit st "\x1B[1L"

/-- Embedding of `MiniScreen._print_line_1`. -/
def print_line_1 (st : MiniScreen) (line : String) : MiniScreen :=
  let st := emit st "\r"
  let st := move_up st st.screen_lines.length
  let st := insert_line st
  let st := emit st (line ++ "\r")
  let st := move_down st st.screen_lines.length
  emit st "\n"

/-- Embedding of `MiniScreen.print_line`. -/
def print_line (st : MiniScreen) (line : String) : MiniScreen :=
  let st := print_line_1 st line
  if st.cursor ≠ 0 then emit st ("\x1B[" ++ toString st.cursor ++ "D") else st

/-- Embedding of `MiniScreen.set_line`: replace the input buffer by `s`, with the cursor
argument defaulting to `len(s)` and clamped into `[0, len(s)]`. -/
def set_line (st : MiniScreen) (s : String) (c : Option Int) : MiniScreen :=
  let c := c.getD (s.length : Int)
  let c := max 0 (min c (s.length : Int))
  let st := { st with linebuf := s }
  let st := emit st ("\r\x1B[K" ++ st.linebuf)
  let st := { st with cursor := c }
  if st.cursor ≠ (st.linebuf.length : Int) then
    emit st ("\x1B[" ++ toString ((st.linebuf.length : Int) - st.cursor) ++ "D")
  else st

/-- The reconciliation loop of `MiniScreen.set_window`, threading the index
`i`, the mirror `_screen_lines` and the output stream. -/
def setWindowLoop (lines : List String) (i : Nat) (sl : List String) (out : String) :
    Nat × List String × String :=
  match lines with
  | [] => (i, sl, out)
  | line :: rest =>
    let out := if i = 0 then out ++ "\r" else out
    if i = sl.length then
      setWindowLoop rest (i + 1) (sl ++ [line]) (out ++ "\x1B[1L" ++ line ++ "\r\n")
    else
      setWindowLoop rest (i + 1) (sl.set i line) (out ++ "\x1B[K" ++ line ++ "\r\n")

/-- Embedding of `MiniScreen.set_window`. -/
def set_window (st : MiniScreen) (lines : List String) : MiniScreen :=
  let st := move_up st st.screen_lines.length
  let r := setWindowLoop lines 0 st.screen_lines st.out
  let i := r.1
  let st := { st with screen_lines := r.2.1, out := r.2.2 }
  let st :=
    if i < st.screen_lines.length then
      { emit st ("\r\x1B[" ++ toString (st.screen_lines.length - i) ++ "M") with
        screen_lines := st.screen_lines.take i }
    else st
  let st := emit st ("\r\x1B[K" ++ st.linebuf)
  if st.cursor ≠ (st.linebuf.length : Int) then
    emit st ("\x1B[" ++ toString ((st.linebuf.length : Int) - st.cursor) ++ "D")
  else st

/-- Embedding of `MiniScreen.start`, restricted to its effect on the model: emit the
bracketed-paste/autowrap enables and redraw via the `set_window` hack
(`lines = self._screen_lines[:]; del self._screen_lines[:]; set_window(lines)`).
The termios raw-mode call has no model content. -/
def start (st : MiniScreen) : MiniScreen :=
  let st := emit st "\x1B[?2004h"
  let st := emit st "\x1B[?7l"
  let lines := st.screen_lines
  set_window { st with screen_lines := [] } lines

/-- Embedding of `MiniScreen.handle_keystroke`: the edit-state transition plus the
classification tag it returns (`none` embeds Python's `None`). -/
def handle_keystroke (st : MiniScreen) (s : String) : MiniScreen × Option String :=
  if s = "return" ∨ s = "newline" then
    let st := print_line_1 st st.linebuf
    let st := { st with linebuf := "", cursor := 0 }
    (emit st "\x1B[K", some "newline")
  else if s = "backspace" then
    if st.cursor ≠ 0 then
      let st :=
        { st with linebuf := pyTake st.linebuf (st.cursor - 1) ++ pyDrop st.linebuf st.cursor,
                  cursor := st.cursor - 1 }
      (emit st "\x08\x1B[1P", some "erase")
    else (st, some "erase")
  else if s.length = 1 then
    let st := if st.cursor ≠ (st.linebuf.length : Int) then emit st "\x1B[1@" else st
    let st :=
      { st with linebuf := pyTake st.linebuf st.cursor ++ s ++ pyDrop st.linebuf st.cursor,
                cursor := st.cursor + 1 }
    (emit st s, some "input")
  else if s = "CTRL-A" ∨ s = "home" then
    ({ emit st "\r" with cursor := 0 }, some "arrow")
  else if s = "CTRL-E" ∨ s = "end" then
    let st := { st with cursor := (st.linebuf.length : Int) }
    let st := emit st "\r"
    let st := if st.cursor ≠ 0 then emit st ("\x1B[" ++ toString st.cursor ++ "C") else st
    (st, some "arrow")
  else if s = "CTRL-U" then
    ({ emit st "\r\x1B[K" with cursor := 0, linebuf := "" }, some "erase")
  else if s = "ALT-backspace" then
    let i := skipBack (fun c => ¬ pyIsAlnum c) st.linebuf st.cursor
    let i := skipBack (fun c => pyIsAlnum c) st.linebuf i
    let st := { st with linebuf := pyTake st.linebuf i ++ pyDrop st.linebuf st.cursor }
    let st := emit st ("\x1B[" ++ toString (st.cursor - i) ++ "D")
    let st := emit st ("\x1B[" ++ toString (st.cursor - i) ++ "P")
    ({ st with cursor := i }, some "erase")
  else if s = "CTRL-W" then
    let i := skipBack (fun c => pyIsSpace c) st.linebuf st.cursor
    let i := skipBack (fun c => ¬ pyIsSpace c) st.linebuf i
    let st := { st with linebuf := pyTake st.linebuf i ++ pyDrop st.linebuf st.cursor }
    let st := emit st ("\x1B[" ++ toString (st.cursor - i) ++ "D")
    let st := emit st ("\x1B[" ++ toString (st.cursor - i) ++ "P")
    ({ st with cursor := i }, some "erase")
  else if s = "leftarrow" then
    if st.cursor > 0 then
      ({ emit st "\x1B[D" with cursor := st.cursor - 1 }, some "arrow")
    else (st, some "arrow")
  else if s = "rightarrow" then
    if st.cursor < (st.linebuf.length : Int) then
      ({ emit st "\x1B[C" with cursor := st.cursor + 1 }, some "arrow")
    else (st, some "arrow")
  else (st, none)

/-- A `MiniScreen` as constructed by `__init__`. -/
def MiniScreen.init : MiniScreen :=
  { screen_lines := [], linebuf := "", cursor := 0, out := "" }

/-- State component of `handle_keystroke`. -/
def hk (st : MiniScreen) (s : String) : MiniScreen :=
  (handle_keystroke st s).1

/-- Number of occurrences of `pat` as a contiguous sublist of `s`
(counted over all start positions). -/
def substrCount (pat : List Char) : List Char → Nat
  | [] => 0
  | c :: rest =>
    (if pat.isPrefixOf (c :: rest) then 1 else 0) + substrCount pat rest

example :
    (set_window MiniScreen.init ["a", "b"]).out =
      "\r\x1B[1La\r\n\x1B[1Lb\r\n\r\x1B[K" := by decide
example :
    (set_window MiniScreen.init ["a", "b"]).screen_lines = ["a", "b"] := by decide
example :
    (set_window { set_window MiniScreen.init ["a", "b"] with out := "" }
        ["a", "b", "c"]).out =
      "\x1B[2A\r\x1B[Ka\r\n\x1B[Kb\r\n\x1B[1Lc\r\n\r\x1B[K" := by decide
example :
    (hk (hk (hk (hk MiniScreen.init "a") "b") "leftarrow") "backspace").linebuf = "b" := by
  decide
example :
    (hk (hk (hk (hk MiniScreen.init "a") "b") "leftarrow") "backspace").cursor = 0 := by
  decide
example :
    (hk { MiniScreen.init with linebuf := "foo bar", cursor := 7 } "ALT-backspace").linebuf =
      "foo " := by decide
example :
    (hk { MiniScreen.init with linebuf := "foo bar", cursor := 7 } "CTRL-W").linebuf =
      "foo " := by decide

/-! ## minifutures.py : EventLoop

Python objects are embedded through explicit stores: `Process` objects
live in `procs` keyed by an identifier, `Task` objects are represented by
their `coro` field in `tasks`.  The three descriptor tables map a file
descriptor to the identifier of the owning process.  Coroutines are
embedded one resumption at a time: resuming with a `ResumeEvent` either
finishes (`StopIteration`) or yields the next `Process` to mount together
with the coroutine's continuation. -/

/-- The value delivered into a paused coroutine by `can_read`: either
`task.coro.send(stdout)` or
`task.coro.throw(subprocess.CalledProcessError(returncode, cmdline, stdout, None))`. -/
inductive ResumeEvent where
  | send (stdout : List Nat)
  | throwErr (returncode : Int) (cmdline : List String) (stdout : List Nat)
deriving DecidableEq, Repr

/-- A freshly created `Process` as built by `check_output`, before being
mounted: argument vector, optional input bytes, and the descriptors the
spawn opened. -/
structure ProcSpec where
  cmdline : List String
  input : Option (List Nat)
  pidfd : Nat
  readfd : Nat
  writefd : Option Nat
deriving DecidableEq, Repr

/-- A coroutine, one resumption at a time: `step ev` is `none` on
`StopIteration` and otherwise the yielded `Process` plus continuation. -/
inductive Coro where
  | mk (step : ResumeEvent → Option (ProcSpec × Coro))

/-- Resume a coroutine once. -/
def Coro.step : Coro → ResumeEvent → Option (ProcSpec × Coro)
  | .mk f => f

/-- The mutable `Process` record of `minifutures.py`. -/
structure Process where
  cmdline : List String
  input : Option (List Nat)
  output : List Nat
  pidfd : Option Nat
  readfd : Option Nat
  writefd : Option Nat
  task : Option Nat

/-- Association-list read `d[k]` / `k in d`. -/
def getA {α : Type} (k : Nat) : List (Nat × α) → Option α
  | [] => none
  | (k', v) :: rest => if k = k' then some v else getA k rest

/-- Association-list delete `del d[k]`. -/
def delA {α : Type} (k : Nat) (l : List (Nat × α)) : List (Nat × α) :=
  l.filter (fun p => p.1 ≠ k)

/-- Association-list write `d[k] = v`. -/
def setA {α : Type} (k : Nat) (v : α) (l : List (Nat × α)) : List (Nat × α) :=
  (k, v) :: delA k l

/-- The `EventLoop` state: the three descriptor tables (fd ↦ process id)
plus the stores backing the Python object graph, and counters supplying
fresh store identifiers. -/
structure EL where
  pidfdTab : List (Nat × Nat)
  readfdTab : List (Nat × Nat)
  writefdTab : List (Nat × Nat)
  procs : List (Nat × Process)
  tasks : List (Nat × Option Coro)
  nextProc : Nat
  nextTask : Nat

/-- Embedding of `EventLoop.__init__`: empty tables. -/
def EL.empty : EL :=
  { pidfdTab := [], readfdTab := [], writefdTab := [], procs := [], tasks := [],
    nextProc := 0, nextTask := 0 }

/-- The `# Mount new Process into EventLoop` block shared by `can_read`
and `create_task`: register the new process under all of its descriptors
with `tid` as owning task. -/
def mountProc (st : EL) (spec : ProcSpec) (tid : Nat) : EL :=
  let pidI := st.nextProc
  let proc : Process :=
    { cmdline := spec.cmdline, input := spec.input, output := [],
      pidfd := some spec.pidfd, readfd := some spec.readfd,
      writefd := spec.writefd, task := some tid }
  { st with
    procs := setA pidI proc st.procs,
    pidfdTab := setA spec.pidfd pidI st.pidfdTab,
    readfdTab := setA spec.readfd pidI st.readfdTab,
    writefdTab :=
      match spec.writefd with
      | some w => setA w pidI st.writefdTab
      | none => st.writefdTab,
    nextProc := st.nextProc + 1 }

/-- The `if fd in self.readfd_to_process` half of `EventLoop.can_read`:
`rd` is the result of `os.read(fd, 2**20)`.  `none` embeds a failed
`assert`. -/
def readBranch (st : EL) (fd : Nat) (rd : List Nat) : Option EL :=
  match getA fd st.readfdTab with
  | none => some st
  | some pidI =>
    match getA fd st.pidfdTab with
    | some _ => none
    | none =>
      match getA pidI st.procs with
      | none => none
      | some proc =>
        if proc.readfd = some fd then
          let proc := { proc with output := proc.output ++ rd }
          if rd = [] then
            some { st with
                   procs := setA pidI { proc with readfd := none } st.procs,
                   readfdTab := delA fd st.readfdTab }
          else some { st with procs := setA pidI proc st.procs }
        else none

/-- The `if fd in self.pidfd_to_process` half of `EventLoop.can_read`:
`rc` is the wait status collected by `proc.inner.wait()`.  Returns the
state up to just before the remount of a newly yielded process, the event
delivered into the waiting coroutine (if any), and the pending mount. -/
def exitBranch (st : EL) (fd : Nat) (rc : Int) :
    Option (EL × Option ResumeEvent × Option (Nat × ProcSpec × Coro)) :=
  match getA fd st.pidfdTab with
  | none => some (st, none, none)
  | some pidI =>
    match getA fd st.readfdTab with
    | some _ => none
    | none =>
      match getA pidI st.procs with
      | none => none
      | some proc =>
        if proc.pidfd = some fd then
          let st := { st with pidfdTab := delA fd st.pidfdTab }
          let st :=
            match proc.readfd with
            | some rfd => { st with readfdTab := delA rfd st.readfdTab }
            | none => st
          let st :=
            match proc.writefd with
            | some wfd => { st with writefdTab := delA wfd st.writefdTab }
            | none => st
          match proc.task with
          | none => none
          | some tid =>
            let proc' : Process :=
              { proc with pidfd := none, readfd := none, writefd := none, task := none }
            let st := { st with procs := setA pidI proc' st.procs }
            match getA tid st.tasks with
            | none => none
            | some none => none
            | some (some c) =>
              let stdout := proc.output
              let ev :=
                if rc ≠ 0 then ResumeEvent.throwErr rc proc.cmdline stdout
                else ResumeEvent.send stdout
              match c.step ev with
              | none =>
                some ({ st with tasks := setA tid none st.tasks }, some ev, none)
              | some (spec, k) =>
                some ({ st with tasks := setA tid (some k) st.tasks }, some ev,
                      some (tid, spec, k))
        else none

/-- Embedding of `EventLoop.can_read` up to the remount of a newly yielded process. -/
def canReadAux (st : EL) (fd : Nat) (rd : List Nat) (rc : Int) :
    Option (EL × Option ResumeEvent × Option (Nat × ProcSpec × Coro)) :=
  match readBranch st fd rd with
  | none => none
  | some st1 => exitBranch st1 fd rc

/-- Perform the pending remount left by `canReadAux`. -/
def applyMount (st : EL) : Option (Nat × ProcSpec × Coro) → EL
  | none => st
  | some (tid, spec, _) => mountProc st spec tid

/-- Embedding of `EventLoop.can_read`: both readiness branches, including the remount
of a process yielded by the resumed coroutine. -/
def can_read (st : EL) (fd : Nat) (rd : List Nat) (rc : Int) :
    Option (EL × Option ResumeEvent) :=
  match canReadAux st fd rd rc with
  | none => none
  | some (st', ev, m) => some (applyMount st' m, ev)

/-- Embedding of `EventLoop.can_write`: `w` is the byte count returned by
`os.write(fd, proc.input)`. -/
def can_write (st : EL) (fd : Nat) (w : Nat) : Option EL :=
  match getA fd st.writefdTab with
  | none => none
  | some pidI =>
    match getA pidI st.procs with
    | none => none
    | some proc =>
      if proc.writefd = some fd then
        match proc.input with
        | none => none
        | some inp =>
          if w = 0 then none
          else
            let rest := inp.drop w
            let proc' :=
              { proc with input := if rest = [] then none else some rest }
            if rest = [] then
              some { st with
                     procs := setA pidI { proc' with writefd := none } st.procs,
                     writefdTab := delA fd st.writefdTab }
            else some { st with procs := setA pidI proc' st.procs }
      else none

/-- Embedding of `create_task`: start the coroutine with `coro.send(None)`;
`firstStep` is that call's outcome (`none` embeds `StopIteration`).
On a yielded process, record the task and mount the process. -/
def create_task (st : EL) (firstStep : Option (ProcSpec × Coro)) : EL :=
  match firstStep with
  | none => st
  | some (spec, k) =>
    let tid := st.nextTask
    let st := { st with tasks := setA tid (some k) st.tasks, nextTask := st.nextTask + 1 }
    mountProc st spec tid

/-- Key set of a descriptor table. -/
def keysOf (l : List (Nat × Nat)) : List Nat :=
  l.map Prod.fst

/-- All descriptors currently registered in any of the three tables. -/
def allFds (st : EL) : List Nat :=
  keysOf st.pidfdTab ++ keysOf st.readfdTab ++ keysOf st.writefdTab

/-- The descriptors of a newly spawned process are fresh: the operating
system hands out descriptors that are pairwise distinct and not currently
registered in the loop. -/
def FreshSpec (spec : ProcSpec) (st : EL) : Prop :=
  spec.pidfd ∉ allFds st ∧ spec.readfd ∉ allFds st ∧ spec.pidfd ≠ spec.readfd ∧
    ∀ w, spec.writefd = some w →
      w ∉ allFds st ∧ w ≠ spec.pidfd ∧ w ≠ spec.readfd

/-- Registration invariant: within each table the keys are distinct, and
the three tables have pairwise disjoint key sets — in particular an
exit-notification descriptor is never simultaneously a read-waiter, and
every descriptor has at most one owning registration. -/
def RegInv (st : EL) : Prop :=
  (keysOf st.pidfdTab).Nodup ∧ (keysOf st.readfdTab).Nodup ∧
  (keysOf st.writefdTab).Nodup ∧
  (∀ k, k ∈ keysOf st.pidfdTab → k ∉ keysOf st.readfdTab) ∧
  (∀ k, k ∈ keysOf st.pidfdTab → k ∉ keysOf st.writefdTab) ∧
  (∀ k, k ∈ keysOf st.readfdTab → k ∉ keysOf st.writefdTab)

/-- Event-loop states reachable from the empty loop by mounting tasks
(`create_task`, with OS-fresh descriptors) and by the readiness-handling
steps (`can_read` including remount-on-resume, and `can_write`). -/
inductive Reach : EL → Prop where
  | init : Reach EL.empty
  | create (st : EL) (spec : ProcSpec) (k : Coro) :
      Reach st → FreshSpec spec st → Reach (create_task st (some (spec, k)))
  | create_stop (st : EL) : Reach st → Reach (create_task st none)
  | read_nomount (st st' : EL) (fd : Nat) (rd : List Nat) (rc : Int)
      (ev : Option ResumeEvent) :
      Reach st → canReadAux st fd rd rc = some (st', ev, none) → Reach st'
  | read_mount (st st' : EL) (fd : Nat) (rd : List Nat) (rc : Int)
      (ev : Option ResumeEvent) (tid : Nat) (spec : ProcSpec) (k : Coro) :
      Reach st → canReadAux st fd rd rc = some (st', ev, some (tid, spec, k)) →
      FreshSpec spec st' → Reach (mountProc st' spec tid)
  | write (st st' : EL) (fd : Nat) (w : Nat) :
      Reach st → can_write st fd w = some st' → Reach st'

/-! ## Theorems -/

/-- One CSI accumulation step: the last character is in `[0x20, 0x3C)` and
the callback supplies another character. -/
theorem csiLoop_cons (s : String) (last c : Char) (r : List (Option Char))
    (h : 0x20 ≤ last.toNat ∧ last.toNat < 0x3C) :
    csiLoop s last (some c :: r) = csiLoop (s.push c) c r := by
  rw [csiLoop.eq_def, if_pos h]

/-- CSI accumulation ends when the last character leaves `[0x20, 0x3C)`. -/
theorem csiLoop_last (s : String) (last : Char) (r : List (Option Char))
    (h : ¬(0x20 ≤ last.toNat ∧ last.toNat < 0x3C)) :
    csiLoop s last r = s := by
  rw [csiLoop.eq_def, if_neg h]

/-- Evaluation of `parse_one_keystroke` on `ESC [`: accumulate a CSI string and look it
up in `csicodes`. -/
theorem parse_one_keystroke_csi (c : Char) (r : List (Option Char)) :
    parse_one_keystroke '\x1B' (some '[' :: some c :: r) =
      (match lookupTab (csiLoop (String.singleton c) c r) csicodes with
       | some t => Except.ok t
       | none => Except.error (.needCsi (csiLoop (String.singleton c) c r))) := rfl

/-- C1: For every byte source, `parse_one_keystroke` decodes ESC-prefixed
sequences via its fixed tables: `ESC [ 1 ; 5 A` gives "CTRL-uparrow",
`ESC [ 3 ~` gives "delete", `ESC O P` gives "F1"; a lone ESC whose
continuation callback returns nothing gives "escape"; and any accumulated
CSI string absent from the table is a hard decode error, never a default
token. -/
theorem parse_one_keystroke_escape_sequences :
    (∀ r, parse_one_keystroke '\x1B'
        (some '[' :: some '1' :: some ';' :: some '5' :: some 'A' :: r) =
        .ok "CTRL-uparrow") ∧
    (∀ r, parse_one_keystroke '\x1B' (some '[' :: some '3' :: some '~' :: r) =
        .ok "delete") ∧
    (∀ r, parse_one_keystroke '\x1B' (some 'O' :: some 'P' :: r) = .ok "F1") ∧
    (∀ r, parse_one_keystroke '\x1B' (none :: r) = .ok "escape") ∧
    parse_one_keystroke '\x1B' [] = .ok "escape" ∧
    (∀ (c : Char) (r : List (Option Char)),
      lookupTab (csiLoop (String.singleton c) c r) csicodes = none →
      parse_one_keystroke '\x1B' (some '[' :: some c :: r) =
        .error (.needCsi (csiLoop (String.singleton c) c r))) := by
  refine ⟨?_, ?_, fun r => rfl, fun r => rfl, rfl, ?_⟩
  · intro r
    rw [parse_one_keystroke_csi, csiLoop_cons _ _ _ _ (by decide),
      csiLoop_cons _ _ _ _ (by decide), csiLoop_cons _ _ _ _ (by decide),
      csiLoop_last _ _ _ (by decide)]
    rfl
  · intro r
    rw [parse_one_keystroke_csi, csiLoop_cons _ _ _ _ (by decide),
      csiLoop_last _ _ _ (by decide)]
    rfl
  · intro c r h
    rw [parse_one_keystroke_csi, h]

/-- Witness for C1: the CSI accumulator "z" is unmapped and produces the
hard error. -/
theorem parse_one_keystroke_escape_sequences_witness :
    lookupTab (csiLoop (String.singleton 'z') 'z' []) csicodes = none ∧
    parse_one_keystroke '\x1B' [some '[', some 'z'] =
      .error (.needCsi (csiLoop (String.singleton 'z') 'z' [])) :=
  ⟨rfl, parse_one_keystroke_escape_sequences.2.2.2.2.2 'z' [] rfl⟩

/-- C2: For every single non-escape character: code points that are at
least 32 and not 127 are returned literally; the C0 codes 0x01–0x1A give
their CTRL-letter tokens except TAB, NEWLINE and CR which give their
named tokens, and DEL gives "backspace". -/
theorem parse_one_keystroke_single_chars :
    (∀ (c : Char) (next : List (Option Char)), 32 ≤ c.toNat → c.toNat ≠ 127 →
       parse_one_keystroke c next = .ok (String.singleton c)) ∧
    (∀ (o : Nat) (next : List (Option Char)),
       o < 27 → 1 ≤ o → o ≠ 9 → o ≠ 10 → o ≠ 13 →
       parse_one_keystroke (Char.ofNat o) next =
         .ok ("CTRL-" ++ String.singleton (Char.ofNat (64 + o)))) ∧
    (∀ next, parse_one_keystroke '\x7F' next = .ok "backspace") ∧
    (∀ next, parse_one_keystroke '\x09' next = .ok "tab") ∧
    (∀ next, parse_one_keystroke '\x0A' next = .ok "newline") ∧
    (∀ next, parse_one_keystroke '\x0D' next = .ok "return") := by
  refine ⟨?_, ?_, fun _ => rfl, fun _ => rfl, fun _ => rfl, fun _ => rfl⟩
  · intro c next h1 h2
    show (if 32 ≤ c.toNat ∧ c.toNat ≠ 127 then
            Except.ok (String.singleton c)
          else if c = '\x1B' then escPath next
          else
            match lookupTab (String.singleton c) codes with
            | some t => .ok t
            | none => .error (.needCodes (String.singleton c))) = _
    rw [if_pos ⟨h1, h2⟩]
  · intro o next h0 h1 h9 h10 h13
    interval_cases o <;> first | omega | rfl

/-- A three-byte UTF-8 lead with no continuation bytes is an incomplete
sequence. -/
theorem utf8Decode_three_one (b0 : Nat) (h1 : 0xE0 ≤ b0) (h2 : b0 < 0xF0) :
    utf8Decode [b0] = .error .unexpectedEnd := by
  simp only [utf8Decode]
  rw [if_neg (by omega), if_neg (by omega), if_neg (by omega), if_pos (by omega)]

/-- A three-byte UTF-8 lead with one valid continuation byte is still an
incomplete sequence. -/
theorem utf8Decode_three_two (b0 b1 : Nat) (h1 : 0xE0 ≤ b0) (h2 : b0 < 0xF0)
    (h3 : utf8Cont1Lo b0 ≤ b1) (h4 : b1 ≤ utf8Cont1Hi b0) :
    utf8Decode [b0, b1] = .error .unexpectedEnd := by
  simp only [utf8Decode]
  rw [if_neg (by omega), if_neg (by omega), if_neg (by omega), if_pos (by omega),
    if_pos ⟨h3, h4⟩]

/-- A complete valid three-byte UTF-8 sequence decodes to one scalar. -/
theorem utf8Decode_three_full (b0 b1 b2 : Nat) (h1 : 0xE0 ≤ b0) (h2 : b0 < 0xF0)
    (h3 : utf8Cont1Lo b0 ≤ b1) (h4 : b1 ≤ utf8Cont1Hi b0)
    (h5 : 0x80 ≤ b2) (h6 : b2 ≤ 0xBF) :
    utf8Decode [b0, b1, b2] =
      .ok [(b0 - 0xE0) * 0x1000 + (b1 - 0x80) * 0x40 + (b2 - 0x80)] := by
  simp only [utf8Decode]
  rw [if_neg (by omega), if_neg (by omega), if_neg (by omega), if_pos (by omega),
    if_pos ⟨h3, h4⟩, if_pos ⟨h5, h6⟩]
  rfl

/-- Running `pocLoop` with fuel left and an empty callback answer decodes the
accumulated bytes (bubbling up their decode error). -/
theorem pocLoop_none (env : Nat → Option Nat) (b : List Nat) (i fuel : Nat)
    (h : env i = none) : pocLoop env b i (fuel + 1) = utf8Decode b := by
  simp only [pocLoop, h]

/-- Running `pocLoop` when the fetched byte completes a valid sequence. -/
theorem pocLoop_some_ok (env : Nat → Option Nat) (b : List Nat) (i fuel : Nat)
    (bb : Nat) (cs : List Nat) (h : env i = some bb)
    (hd : utf8Decode (b ++ [bb]) = .ok cs) :
    pocLoop env b i (fuel + 1) = .ok cs := by
  simp only [pocLoop, h, hd]

/-- Running `pocLoop` when the fetched byte still leaves the sequence incomplete:
retry with one more byte. -/
theorem pocLoop_some_retry (env : Nat → Option Nat) (b : List Nat) (i fuel : Nat)
    (bb : Nat) (h : env i = some bb)
    (hd : utf8Decode (b ++ [bb]) = .error .unexpectedEnd) :
    pocLoop env b i (fuel + 1) = pocLoop env (b ++ [bb]) (i + 1) fuel := by
  simp only [pocLoop, h, hd, eq_self_iff_true, if_true]

/-- Running `pocLoop` when the fetched byte makes the sequence invalid outright:
the error propagates. -/
theorem pocLoop_some_err (env : Nat → Option Nat) (b : List Nat) (i fuel : Nat)
    (bb : Nat) (e : Utf8Error) (h : env i = some bb)
    (hd : utf8Decode (b ++ [bb]) = .error e) (he : e ≠ .unexpectedEnd) :
    pocLoop env b i (fuel + 1) = .error e := by
  simp only [pocLoop, h, hd]
  rw [if_neg he]

/-- The loop `pocLoop` consults the callback only at indices `i ≤ j < i + fuel`. -/
theorem pocLoop_congr (env env' : Nat → Option Nat) :
    ∀ (fuel i : Nat) (b : List Nat),
      (∀ j, i ≤ j → j < i + fuel → env j = env' j) →
      pocLoop env b i fuel = pocLoop env' b i fuel := by
  intro fuel
  induction fuel with
  | zero => intro i b _; rfl
  | succ f ih =>
    intro i b h
    have hi : env' i = env i := (h i (le_refl i) (by omega)).symm
    cases he : env i with
    | none =>
      rw [pocLoop_none env b i f he, pocLoop_none env' b i f (hi.trans he)]
    | some bb =>
      have he' : env' i = some bb := hi.trans he
      cases hd : utf8Decode (b ++ [bb]) with
      | ok cs =>
        rw [pocLoop_some_ok env b i f bb cs he hd,
          pocLoop_some_ok env' b i f bb cs he' hd]
      | error e =>
        by_cases hee : e = .unexpectedEnd
        · subst hee
          rw [pocLoop_some_retry env b i f bb he hd,
            pocLoop_some_retry env' b i f bb he' hd]
          exact ih (i + 1) (b ++ [bb]) (fun j hj1 hj2 => h j (by omega) (by omega))
        · rw [pocLoop_some_err env b i f bb e he hd hee,
            pocLoop_some_err env' b i f bb e he' hd hee]

/-- C3: `parse_one_character` reconstructs exactly one scalar from a valid
3-byte UTF-8 sequence delivered one byte at a time; it retries only on the
incomplete-sequence decode failure and only within the 10-fetch bound (the
result depends on at most the first 10 callback answers); any other decode
failure propagates immediately; and an end-of-stream answer mid-sequence
decodes the accumulated bytes so the original error surfaces. -/
theorem parse_one_character_incremental :
    (∀ (b0 b1 b2 : Nat) (env : Nat → Option Nat),
       0xE0 ≤ b0 → b0 < 0xF0 → utf8Cont1Lo b0 ≤ b1 → b1 ≤ utf8Cont1Hi b0 →
       0x80 ≤ b2 → b2 ≤ 0xBF → env 0 = some b1 → env 1 = some b2 →
       parse_one_character b0 env =
         .ok [(b0 - 0xE0) * 0x1000 + (b1 - 0x80) * 0x40 + (b2 - 0x80)]) ∧
    (∀ (b0 : Nat) (env : Nat → Option Nat), b0 < 0x80 →
       parse_one_character b0 env = .ok [b0]) ∧
    (∀ (b0 : Nat) (env : Nat → Option Nat) (e : Utf8Error),
       utf8Decode [b0] = .error e → e ≠ .unexpectedEnd →
       parse_one_character b0 env = .error e) ∧
    (∀ (b0 : Nat) (env : Nat → Option Nat),
       utf8Decode [b0] = .error .unexpectedEnd → env 0 = none →
       parse_one_character b0 env = .error .unexpectedEnd) ∧
    (∀ (b0 : Nat) (env env' : Nat → Option Nat),
       (∀ j, j < 10 → env j = env' j) →
       parse_one_character b0 env = parse_one_character b0 env') := by
  refine ⟨?_, ?_, ?_, ?_, ?_⟩
  · intro b0 b1 b2 env h1 h2 h3 h4 h5 h6 he0 he1
    have d1 := utf8Decode_three_one b0 h1 h2
    have d2 := utf8Decode_three_two b0 b1 h1 h2 h3 h4
    have d3 := utf8Decode_three_full b0 b1 b2 h1 h2 h3 h4 h5 h6
    simp only [parse_one_character, d1, if_true]
    rw [show (10 : Nat) = 9 + 1 from rfl,
      pocLoop_some_retry env [b0] 0 9 b1 he0 (by simpa using d2),
      show (9 : Nat) = 8 + 1 from rfl,
      pocLoop_some_ok env ([b0] ++ [b1]) 1 8 b2 _ he1 (by simpa using d3)]
  · intro b0 env h
    have : utf8Decode [b0] = .ok [b0] := by
      simp only [utf8Decode]
      rw [if_pos h]
      rfl
    simp only [parse_one_character, this]
  · intro b0 env e hd he
    simp only [parse_one_character, hd]
    rw [if_neg he]
  · intro b0 env hd he
    simp only [parse_one_character, hd, if_true]
    rw [show (10 : Nat) = 9 + 1 from rfl, pocLoop_none env [b0] 0 9 he]
    exact hd
  · intro b0 env env' h
    simp only [parse_one_character]
    cases hd : utf8Decode [b0] with
    | ok cs => rfl
    | error e =>
      by_cases he : e = .unexpectedEnd
      · subst he
        simp only [eq_self_iff_true, if_true]
        exact pocLoop_congr env env' 10 0 [b0] (fun j _ hj2 => h j (by omega))
      · simp [he]

/-- Witness for C3: the euro sign `U+20AC`, encoded `E2 82 AC`, delivered
one byte at a time, decodes to the single scalar 0x20AC. -/
theorem parse_one_character_incremental_witness :
    (0xE0 ≤ 0xE2 ∧ utf8Cont1Lo 0xE2 ≤ 0x82 ∧ 0x80 ≤ 0xAC) ∧
    parse_one_character 0xE2
      (fun i => if i = 0 then some 0x82 else if i = 1 then some 0xAC else none) =
      .ok [0x20AC] := by
  refine ⟨by decide, ?_⟩
  have h := parse_one_character_incremental.1 0xE2 0x82 0xAC
    (fun i => if i = 0 then some 0x82 else if i = 1 then some 0xAC else none)
    (by decide) (by decide) (by decide) (by decide) (by decide) (by decide) rfl rfl
  simpa using h

/-- Witness for C2: the printable character `x` decodes to itself, and the
C0 code 0x01 decodes to CTRL-A. -/
theorem parse_one_keystroke_single_chars_witness :
    (32 ≤ 'x'.toNat ∧ 'x'.toNat ≠ 127) ∧
    parse_one_keystroke 'x' [] = .ok (String.singleton 'x') ∧
    parse_one_keystroke (Char.ofNat 1) [] =
      .ok ("CTRL-" ++ String.singleton (Char.ofNat 65)) :=
  ⟨⟨by decide, by decide⟩,
   parse_one_keystroke_single_chars.1 'x' [] (by decide) (by decide),
   parse_one_keystroke_single_chars.2.1 1 [] (by decide) (by decide) (by decide)
     (by decide) (by decide)⟩

/-- C9: `wait_stdin_read1` consults the readiness primitive with `timeout`
for the first byte and returns the explicit "no input" value (the empty
string, not an error) when nothing becomes ready; with a `none` timeout it
skips the readiness check and blocks in the read; every subsequent byte of
the same character is waited for with `extra_timeout`, whose default is
0.1 seconds. -/
theorem wait_stdin_read1_timeout_behavior :
    (∀ (t e : Option ℚ) (q : ℚ) (sel : Nat → Bool) (rd : Nat → Option Nat),
       t = some q → sel 0 = false → wait_stdin_read1 t e sel rd = .ok []) ∧
    (∀ t e : Option ℚ,
       waitTimeoutAt t e 0 = t ∧ ∀ k, waitTimeoutAt t e (k + 1) = e) ∧
    (∀ (t : Option ℚ) (sel : Nat → Bool) (rd : Nat → Option Nat),
       wait_stdin_read1_default t sel rd = wait_stdin_read1 t (some (1 / 10)) sel rd) ∧
    (∀ (e : Option ℚ) (sel sel' : Nat → Bool) (rd : Nat → Option Nat),
       (∀ k, 1 ≤ k → sel k = sel' k) →
       wait_stdin_read1 none e sel rd = wait_stdin_read1 none e sel' rd) := by
  refine ⟨?_, fun t e => ⟨rfl, fun k => rfl⟩, fun t sel rd => rfl, ?_⟩
  · intro t e q sel rd ht hs
    subst ht
    simp only [wait_stdin_read1, get_next_byte, waitTimeoutAt, hs]
    rfl
  · intro e sel sel' rd h
    have henv : (fun i => get_next_byte (waitTimeoutAt none e (i + 1)) sel rd (i + 1)) =
        (fun i => get_next_byte (waitTimeoutAt none e (i + 1)) sel' rd (i + 1)) := by
      funext i
      cases e with
      | none => rfl
      | some q => simp only [get_next_byte, waitTimeoutAt, h (i + 1) (by omega)]
    have h0 : get_next_byte (waitTimeoutAt none e 0) sel rd 0 =
        get_next_byte (waitTimeoutAt none e 0) sel' rd 0 := rfl
    simp only [wait_stdin_read1, henv, h0]

/-- Witness for C9: with a 1-second timeout and a never-ready descriptor,
`wait_stdin_read1` returns "no input". -/
theorem wait_stdin_read1_timeout_behavior_witness :
    ((some 1 : Option ℚ) = some 1 ∧ (fun _ : Nat => false) 0 = false) ∧
    wait_stdin_read1 (some 1) (some 1) (fun _ => false) (fun _ => some 65) = .ok [] :=
  ⟨⟨rfl, rfl⟩,
   wait_stdin_read1_timeout_behavior.1 (some 1) (some 1) 1 (fun _ => false)
     (fun _ => some 65) rfl rfl⟩

/-- The output emitted by the second `set_window` call of C5's scenario
(`set_window(["a","b"])` then `set_window(["a","b","c"])` on a fresh
screen), isolated by running the second call with an emptied output log. -/
def setWindowSecondOut : String :=
  (set_window { set_window MiniScreen.init ["a", "b"] with out := "" }
    ["a", "b", "c"]).out

/-- C5 counterexample: the claim says the second `set_window` emits no
redraw of the lines "a" and "b", but its output contains the
erase-to-EOL-plus-text redraw sequence for line "a" (and for "b"):
`set_window` rewrites every retained line in place. -/
theorem set_window_redraw_counterexample :
    substrCount ("\x1B[Ka").data setWindowSecondOut.data ≠ 0 ∧
    substrCount ("\x1B[Kb").data setWindowSecondOut.data ≠ 0 := by
  constructor <;> decide

/-- C5 (amended): the second `set_window(["a","b","c"])` call emits exactly
one insert-line, immediately followed by the appended line "c", and it
rewrites the retained lines "a" and "b" in place (erase-to-EOL plus text,
one each), rather than leaving them untouched. -/
theorem set_window_incremental_append :
    setWindowSecondOut = "\x1B[2A\r\x1B[Ka\r\n\x1B[Kb\r\n\x1B[1Lc\r\n\r\x1B[K" ∧
    substrCount ("\x1B[1L").data setWindowSecondOut.data = 1 ∧
    substrCount ("\x1B[1Lc\r\n").data setWindowSecondOut.data = 1 ∧
    substrCount ("\x1B[Ka\r\n").data setWindowSecondOut.data = 1 ∧
    substrCount ("\x1B[Kb\r\n").data setWindowSecondOut.data = 1 := by
  refine ⟨by decide, by decide, by decide, by decide, by decide⟩

/-- C6: typing "a" then "b", one left-arrow, one backspace leaves the
buffer "b" with the cursor at 0; and both word-backspace variants on
"foo bar" with the cursor at the end leave the buffer "foo ". -/
theorem handle_keystroke_editing_examples :
    (hk (hk (hk (hk MiniScreen.init "a") "b") "leftarrow") "backspace").linebuf = "b" ∧
    (hk (hk (hk (hk MiniScreen.init "a") "b") "leftarrow") "backspace").cursor = 0 ∧
    (hk { MiniScreen.init with linebuf := "foo bar", cursor := 7 }
        "ALT-backspace").linebuf = "foo " ∧
    (hk { MiniScreen.init with linebuf := "foo bar", cursor := 7 }
        "CTRL-W").linebuf = "foo " := by
  refine ⟨by decide, by decide, by decide, by decide⟩

theorem emit_screen_lines (st : MiniScreen) (s : String) :
    (emit st s).screen_lines = st.screen_lines := rfl

theorem emit_linebuf (st : MiniScreen) (s : String) :
    (emit st s).linebuf = st.linebuf := rfl

theorem emit_cursor (st : MiniScreen) (s : String) :
    (emit st s).cursor = st.cursor := rfl

theorem move_up_screen_lines (st : MiniScreen) (n : Nat) :
    (move_up st n).screen_lines = st.screen_lines := by
  unfold move_up; split_ifs <;> rfl

theorem move_up_linebuf (st : MiniScreen) (n : Nat) :
    (move_up st n).linebuf = st.linebuf := by
  unfold move_up; split_ifs <;> rfl

theorem move_up_cursor (st : MiniScreen) (n : Nat) :
    (move_up st n).cursor = st.cursor := by
  unfold move_up; split_ifs <;> rfl

theorem move_down_screen_lines (st : MiniScreen) (n : Nat) :
    (move_down st n).screen_lines = st.screen_lines := by
  unfold move_down; split_ifs <;> rfl

theorem move_down_linebuf (st : MiniScreen) (n : Nat) :
    (move_down st n).linebuf = st.linebuf := by
  unfold move_down; split_ifs <;> rfl

theorem move_down_cursor (st : MiniScreen) (n : Nat) :
    (move_down st n).cursor = st.cursor := by
  unfold move_down; split_ifs <;> rfl

theorem insert_line_screen_lines (st : MiniScreen) :
    (insert_line st).screen_lines = st.screen_lines := rfl

theorem insert_line_linebuf (st : MiniScreen) :
    (insert_line st).linebuf = st.linebuf := rfl

theorem insert_line_cursor (st : MiniScreen) :
    (insert_line st).cursor = st.cursor := rfl

theorem print_line_1_screen_lines (st : MiniScreen) (line : String) :
    (print_line_1 st line).screen_lines = st.screen_lines := by
  unfold print_line_1
  simp only [emit_screen_lines, move_down_screen_lines, insert_line_screen_lines,
    move_up_screen_lines]

theorem print_line_1_linebuf (st : MiniScreen) (line : String) :
    (print_line_1 st line).linebuf = st.linebuf := by
  unfold print_line_1
  simp only [emit_linebuf, move_down_linebuf, insert_line_linebuf, move_up_linebuf]

theorem print_line_1_cursor (st : MiniScreen) (line : String) :
    (print_line_1 st line).cursor = st.cursor := by
  unfold print_line_1
  simp only [emit_cursor, move_down_cursor, insert_line_cursor, move_up_cursor]

/-- Two screens with the same four fields are equal. -/
theorem MiniScreen.ext' {a b : MiniScreen} (h1 : a.screen_lines = b.screen_lines)
    (h2 : a.linebuf = b.linebuf) (h3 : a.cursor = b.cursor) (h4 : a.out = b.out) :
    a = b := by
  cases a; cases b
  cases h1; cases h2; cases h3; cases h4
  rfl


/-- Case eliminator for `handle_keystroke`: to prove a property of the
state after any keystroke, it suffices to prove it for each branch,
abstracted over the fields the branch produces (the output stream is
unconstrained). -/
theorem hk_elim (P : MiniScreen → Prop) (st : MiniScreen) (tok : String)
    (hA : ∀ st' : MiniScreen, st'.screen_lines = st.screen_lines → st'.linebuf = "" →
      st'.cursor = 0 → P st')
    (hB1 : st.cursor ≠ 0 → ∀ st' : MiniScreen, st'.screen_lines = st.screen_lines →
      st'.linebuf = pyTake st.linebuf (st.cursor - 1) ++ pyDrop st.linebuf st.cursor →
      st'.cursor = st.cursor - 1 → P st')
    (hC : tok.length = 1 → ∀ st' : MiniScreen, st'.screen_lines = st.screen_lines →
      st'.linebuf = pyTake st.linebuf st.cursor ++ tok ++ pyDrop st.linebuf st.cursor →
      st'.cursor = st.cursor + 1 → P st')
    (hD : ∀ st' : MiniScreen, st'.screen_lines = st.screen_lines →
      st'.linebuf = st.linebuf → st'.cursor = 0 → P st')
    (hE : ∀ st' : MiniScreen, st'.screen_lines = st.screen_lines →
      st'.linebuf = st.linebuf → st'.cursor = (st.linebuf.length : Int) → P st')
    (hG : ∀ st' : MiniScreen, st'.screen_lines = st.screen_lines →
      st'.linebuf = pyTake st.linebuf
          (skipBack (fun c => pyIsAlnum c) st.linebuf
            (skipBack (fun c => ¬ pyIsAlnum c) st.linebuf st.cursor)) ++
        pyDrop st.linebuf st.cursor →
      st'.cursor = skipBack (fun c => pyIsAlnum c) st.linebuf
        (skipBack (fun c => ¬ pyIsAlnum c) st.linebuf st.cursor) → P st')
    (hH : ∀ st' : MiniScreen, st'.screen_lines = st.screen_lines →
      st'.linebuf = pyTake st.linebuf
          (skipBack (fun c => ¬ pyIsSpace c) st.linebuf
            (skipBack (fun c => pyIsSpace c) st.linebuf st.cursor)) ++
        pyDrop st.linebuf st.cursor →
      st'.cursor = skipBack (fun c => ¬ pyIsSpace c) st.linebuf
        (skipBack (fun c => pyIsSpace c) st.linebuf st.cursor) → P st')
    (hI : st.cursor > 0 → ∀ st' : MiniScreen, st'.screen_lines = st.screen_lines →
      st'.linebuf = st.linebuf → st'.cursor = st.cursor - 1 → P st')
    (hJ : st.cursor < (st.linebuf.length : Int) → ∀ st' : MiniScreen,
      st'.screen_lines = st.screen_lines → st'.linebuf = st.linebuf →
      st'.cursor = st.cursor + 1 → P st')
    (hK : P st) : P (hk st tok) := by
  simp only [hk, handle_keystroke]
  by_cases h1 : tok = "return" ∨ tok = "newline"
  · rw [if_pos h1]
    exact hA _ (by simp only [emit_screen_lines]; exact print_line_1_screen_lines st _)
      rfl rfl
  rw [if_neg h1]
  by_cases h2 : tok = "backspace"
  · rw [if_pos h2]
    by_cases h2a : st.cursor ≠ 0
    · rw [if_pos h2a]
      exact hB1 h2a _ rfl rfl rfl
    · rw [if_neg h2a]
      exact hK
  rw [if_neg h2]
  by_cases h3 : tok.length = 1
  · rw [if_pos h3]
    refine hC h3 _ ?_ ?_ ?_ <;> (split_ifs <;> rfl)
  rw [if_neg h3]
  by_cases h4 : tok = "CTRL-A" ∨ tok = "home"
  · rw [if_pos h4]
    exact hD _ rfl rfl rfl
  rw [if_neg h4]
  by_cases h5 : tok = "CTRL-E" ∨ tok = "end"
  · rw [if_pos h5]
    refine hE _ ?_ ?_ ?_ <;> (split_ifs <;> rfl)
  rw [if_neg h5]
  by_cases h6 : tok = "CTRL-U"
  · rw [if_pos h6]
    exact hA _ rfl rfl rfl
  rw [if_neg h6]
  by_cases h7 : tok = "ALT-backspace"
  · rw [if_pos h7]
    exact hG _ rfl rfl rfl
  rw [if_neg h7]
  by_cases h8 : tok = "CTRL-W"
  · rw [if_pos h8]
    exact hH _ rfl rfl rfl
  rw [if_neg h8]
  by_cases h9 : tok = "leftarrow"
  · rw [if_pos h9]
    by_cases h9a : st.cursor > 0
    · rw [if_pos h9a]
      exact hI h9a _ rfl rfl rfl
    · rw [if_neg h9a]
      exact hK
  rw [if_neg h9]
  by_cases h10 : tok = "rightarrow"
  · rw [if_pos h10]
    by_cases h10a : st.cursor < (st.linebuf.length : Int)
    · rw [if_pos h10a]
      exact hJ h10a _ rfl rfl rfl
    · rw [if_neg h10a]
      exact hK
  rw [if_neg h10]
  exact hK

/-- The method `print_line` changes only the output stream: the mirror, the line
buffer and the cursor are untouched. -/
theorem print_line_only_out (st : MiniScreen) (line : String) :
    print_line st line = { st with out := (print_line st line).out } := by
  refine MiniScreen.ext' ?_ ?_ ?_ rfl
  · simp only [print_line]
    split_ifs <;>
      simp only [emit_screen_lines, print_line_1_screen_lines]
  · simp only [print_line]
    split_ifs <;>
      simp only [emit_linebuf, print_line_1_linebuf]
  · simp only [print_line]
    split_ifs <;>
      simp only [emit_cursor, print_line_1_cursor]

/-- The method `handle_keystroke` never touches the `_screen_lines` mirror. -/
theorem hk_screen_lines (st : MiniScreen) (tok : String) :
    (hk st tok).screen_lines = st.screen_lines := by
  refine hk_elim (fun s => s.screen_lines = st.screen_lines) st tok
    ?_ ?_ ?_ ?_ ?_ ?_ ?_ ?_ ?_ rfl
  · exact fun st' h _ _ => h
  · exact fun _ st' h _ _ => h
  · exact fun _ st' h _ _ => h
  · exact fun st' h _ _ => h
  · exact fun st' h _ _ => h
  · exact fun st' h _ _ => h
  · exact fun st' h _ _ => h
  · exact fun _ st' h _ _ => h
  · exact fun _ st' h _ _ => h

/-- C10: `print_line` leaves the whole in-memory screen model unchanged
(`_screen_lines`, `_linebuf`, `_cursor` exactly as before, only the output
stream grows), and finalizing the buffer via `handle_keystroke` on
"return"/"newline" never appends the finalized line to `_screen_lines`. -/
theorem print_line_frame_effect :
    (∀ (st : MiniScreen) (line : String),
       (print_line st line).screen_lines = st.screen_lines ∧
       (print_line st line).linebuf = st.linebuf ∧
       (print_line st line).cursor = st.cursor ∧
       print_line st line = { st with out := (print_line st line).out }) ∧
    (∀ st : MiniScreen,
       (hk st "return").screen_lines = st.screen_lines ∧
       (hk st "newline").screen_lines = st.screen_lines) := by
  refine ⟨fun st line => ?_, fun st => ⟨hk_screen_lines st "return", hk_screen_lines st "newline"⟩⟩
  have h := print_line_only_out st line
  exact ⟨by rw [h], by rw [h], by rw [h], h⟩

/-- The invariant of the screen model: `0 ≤ cursor ≤ len(linebuf)`. -/
def CursorInv (st : MiniScreen) : Prop :=
  0 ≤ st.cursor ∧ st.cursor ≤ (st.linebuf.length : Int)

/-- The index `pyIdx` never exceeds the length it indexes into. -/
theorem pyIdx_le (n : Nat) (i : Int) : pyIdx n i ≤ n := by
  unfold pyIdx
  split_ifs <;> omega

/-- The slice `pyTake` produces `pyIdx` many characters. -/
theorem pyTake_length (s : String) (i : Int) :
    (pyTake s i).length = pyIdx s.length i := by
  have h : (pyTake s i).length = (s.data.take (pyIdx s.length i)).length := rfl
  rw [h, List.length_take]
  have h2 : s.data.length = s.length := rfl
  rw [h2]
  have := pyIdx_le s.length i
  omega

/-- The slice `pyDrop` drops `pyIdx` many characters. -/
theorem pyDrop_length (s : String) (i : Int) :
    (pyDrop s i).length = s.length - pyIdx s.length i := by
  have h : (pyDrop s i).length = (s.data.drop (pyIdx s.length i)).length := rfl
  rw [h, List.length_drop]
  rfl

/-- The backward scan never moves the index forward. -/
theorem skipBackFuel_le (p : Char → Bool) (s : String) :
    ∀ (fuel : Nat) (i : Int), skipBackFuel p s fuel i ≤ i := by
  intro fuel
  induction fuel with
  | zero => intro i; exact le_refl i
  | succ f ih =>
    intro i
    simp only [skipBackFuel]
    split_ifs with h
    · exact le_trans (ih (i - 1)) (by omega)
    · exact le_refl i

/-- The backward scan never goes below zero. -/
theorem skipBackFuel_nonneg (p : Char → Bool) (s : String) :
    ∀ (fuel : Nat) (i : Int), 0 ≤ i → 0 ≤ skipBackFuel p s fuel i := by
  intro fuel
  induction fuel with
  | zero => intro i h; exact h
  | succ f ih =>
    intro i h
    simp only [skipBackFuel]
    split_ifs with hc
    · exact ih (i - 1) (by omega)
    · exact h

/-- The scan `skipBack` never moves the index forward. -/
theorem skipBack_le (p : Char → Bool) (s : String) (i : Int) : skipBack p s i ≤ i :=
  skipBackFuel_le p s i.toNat i

/-- The scan `skipBack` never goes below zero. -/
theorem skipBack_nonneg (p : Char → Bool) (s : String) (i : Int) (h : 0 ≤ i) :
    0 ≤ skipBack p s i :=
  skipBackFuel_nonneg p s i.toNat i h

/-- The word-backspace edit preserves the cursor invariant. -/
theorem wordBack_inv (p1 p2 : Char → Bool) (lb : String) (cur : Int)
    (h0 : 0 ≤ cur) (h1 : cur ≤ (lb.length : Int)) :
    0 ≤ skipBack p2 lb (skipBack p1 lb cur) ∧
    skipBack p2 lb (skipBack p1 lb cur) ≤
      (((pyTake lb (skipBack p2 lb (skipBack p1 lb cur)) ++ pyDrop lb cur).length : Nat) : Int) := by
  have b1 : skipBack p1 lb cur ≤ cur := skipBack_le p1 lb cur
  have b2 : 0 ≤ skipBack p1 lb cur := skipBack_nonneg p1 lb cur h0
  have b3 : skipBack p2 lb (skipBack p1 lb cur) ≤ skipBack p1 lb cur :=
    skipBack_le p2 lb _
  have b4 : 0 ≤ skipBack p2 lb (skipBack p1 lb cur) :=
    skipBack_nonneg p2 lb _ b2
  have hl : (pyTake lb (skipBack p2 lb (skipBack p1 lb cur)) ++ pyDrop lb cur).length =
      pyIdx lb.length (skipBack p2 lb (skipBack p1 lb cur)) +
        (lb.length - pyIdx lb.length cur) := by
    rw [String.length_append, pyTake_length, pyDrop_length]
  rw [hl]
  unfold pyIdx
  split_ifs <;> omega

/-- The method `set_window` touches neither the line buffer nor the cursor. -/
theorem set_window_model (st : MiniScreen) (lines : List String) :
    (set_window st lines).linebuf = st.linebuf ∧
    (set_window st lines).cursor = st.cursor := by
  cases st
  simp only [set_window, emit, move_up]
  split_ifs <;> exact ⟨rfl, rfl⟩

/-- A state that agrees with an invariant state on buffer and cursor is
invariant. -/
theorem CursorInv.of_eq {st st' : MiniScreen} (h1 : st'.linebuf = st.linebuf)
    (h2 : st'.cursor = st.cursor) (h : CursorInv st) : CursorInv st' := by
  unfold CursorInv at *
  rw [h1, h2]
  exact h


/-- The cursor invariant is preserved by every keystroke. -/
theorem hk_cursor_inv (st : MiniScreen) (h0 : 0 ≤ st.cursor)
    (h1 : st.cursor ≤ (st.linebuf.length : Int)) (tok : String) :
    CursorInv (hk st tok) := by
  refine hk_elim CursorInv st tok ?_ ?_ ?_ ?_ ?_ ?_ ?_ ?_ ?_ ⟨h0, h1⟩
  · intro st' hs hl hc
    unfold CursorInv
    rw [hc, hl]
    omega
  · intro hne st' hs hl hc
    unfold CursorInv
    rw [hc, hl, String.length_append, pyTake_length, pyDrop_length]
    unfold pyIdx
    split_ifs <;> omega
  · intro hlen st' hs hl hc
    unfold CursorInv
    rw [hc, hl, String.length_append, String.length_append, pyTake_length,
      pyDrop_length]
    unfold pyIdx
    split_ifs <;> omega
  · intro st' hs hl hc
    unfold CursorInv
    rw [hc, hl]
    omega
  · intro st' hs hl hc
    unfold CursorInv
    rw [hc, hl]
    omega
  · intro st' hs hl hc
    unfold CursorInv
    rw [hc, hl]
    exact wordBack_inv _ _ st.linebuf st.cursor h0 h1
  · intro st' hs hl hc
    unfold CursorInv
    rw [hc, hl]
    exact wordBack_inv _ _ st.linebuf st.cursor h0 h1
  · intro hlt st' hs hl hc
    unfold CursorInv
    rw [hc, hl]
    omega
  · intro hlt st' hs hl hc
    unfold CursorInv
    rw [hc, hl]
    omega

/-- C7: the screen-model invariant `0 ≤ cursor ≤ len(linebuf)` holds for a
fresh `MiniScreen` and is preserved by `set_line` (which clamps its cursor
argument), `print_line`, `set_window`, `start`, and `handle_keystroke` on
every token. -/
theorem miniscreen_cursor_invariant (st : MiniScreen) (hI : CursorInv st) :
    CursorInv MiniScreen.init ∧
    (∀ (s : String) (c : Option Int), CursorInv (set_line st s c)) ∧
    (∀ line, CursorInv (print_line st line)) ∧
    (∀ lines, CursorInv (set_window st lines)) ∧
    CursorInv (start st) ∧
    (∀ tok, CursorInv (hk st tok)) := by
  obtain ⟨h0, h1⟩ := hI
  refine ⟨⟨le_refl 0, by simp [MiniScreen.init]⟩, ?_, ?_, ?_, ?_, ?_⟩
  · intro s c
    simp only [set_line]
    split_ifs <;>
      (simp only [CursorInv, emit_linebuf, emit_cursor]; constructor <;> omega)
  · intro line
    exact CursorInv.of_eq (by rw [print_line_only_out st line])
      (by rw [print_line_only_out st line]) ⟨h0, h1⟩
  · intro lines
    exact CursorInv.of_eq (set_window_model st lines).1 (set_window_model st lines).2 ⟨h0, h1⟩
  · exact CursorInv.of_eq (set_window_model _ _).1 (set_window_model _ _).2 ⟨h0, h1⟩
  · intro tok
    exact hk_cursor_inv st h0 h1 tok

theorem getA_delA_self {α : Type} (k : Nat) (l : List (Nat × α)) :
    getA k (delA k l) = none := by
  unfold delA
  induction l with
  | nil => rfl
  | cons p t ih =>
    obtain ⟨k', v⟩ := p
    by_cases h : k' = k
    · rw [List.filter_cons_of_neg (by simp [h])]
      exact ih
    · rw [List.filter_cons_of_pos (by simp [h])]
      simp only [getA]
      rw [if_neg (fun hh => h hh.symm)]
      exact ih

theorem getA_setA_self {α : Type} (k : Nat) (v : α) (l : List (Nat × α)) :
    getA k (setA k v l) = some v := by
  simp [setA, getA]

/-- C4: when the scheduler handles exit readiness for a child process, it
unregisters all of that process's descriptors (exit, output, and input if
still open), clears the process record's descriptor and task fields, and
resumes the waiting task exactly once — with the captured stdout on exit
code 0 and with a failure carrying the exit code, argument vector and
captured output exactly when the exit code is non-zero. -/
theorem can_read_exit_resumes_once (st : EL) (fd : Nat) (rd : List Nat) (rc : Int)
    (pidI : Nat) (proc : Process) (tid : Nat) (c : Coro)
    (h1 : getA fd st.readfdTab = none)
    (h2 : getA fd st.pidfdTab = some pidI)
    (h3 : getA pidI st.procs = some proc)
    (h4 : proc.pidfd = some fd)
    (h5 : proc.task = some tid)
    (h6 : getA tid st.tasks = some (some c)) :
    ∃ (st' : EL) (m : Option (Nat × ProcSpec × Coro)),
      canReadAux st fd rd rc =
        some (st',
          some (if rc ≠ 0 then ResumeEvent.throwErr rc proc.cmdline proc.output
                else ResumeEvent.send proc.output), m) ∧
      getA fd st'.pidfdTab = none ∧
      (∀ rfd, proc.readfd = some rfd → getA rfd st'.readfdTab = none) ∧
      (∀ wfd, proc.writefd = some wfd → getA wfd st'.writefdTab = none) ∧
      ∃ proc' : Process, getA pidI st'.procs = some proc' ∧
        proc'.pidfd = none ∧ proc'.readfd = none ∧ proc'.writefd = none ∧
        proc'.task = none ∧ proc'.output = proc.output ∧
        proc'.cmdline = proc.cmdline := by
  have hrb : readBranch st fd rd = some st := by
    unfold readBranch
    rw [h1]
  have hcra : canReadAux st fd rd rc = exitBranch st fd rc := by
    unfold canReadAux
    rw [hrb]
  rw [hcra]
  unfold exitBranch
  rw [h2]
  try dsimp only
  rw [h1]
  try dsimp only
  rw [h3]
  try dsimp only
  rw [if_pos h4]
  try dsimp only
  rw [h5]
  cases hr : proc.readfd with
  | none =>
    cases hw : proc.writefd with
    | none =>
      try dsimp only
      rw [h6]
      try dsimp only
      cases hstep : c.step (if rc ≠ 0 then ResumeEvent.throwErr rc proc.cmdline proc.output
          else ResumeEvent.send proc.output) with
      | none =>
        refine ⟨_, _, rfl, getA_delA_self fd st.pidfdTab, ?_, ?_, ?_⟩
        · intro rfd hrf; cases hrf
        · intro wfd hwf; cases hwf
        · exact ⟨_, getA_setA_self pidI _ st.procs, rfl, rfl, rfl, rfl, rfl, rfl⟩
      | some sk =>
        refine ⟨_, _, rfl, getA_delA_self fd st.pidfdTab, ?_, ?_, ?_⟩
        · intro rfd hrf; cases hrf
        · intro wfd hwf; cases hwf
        · exact ⟨_, getA_setA_self pidI _ st.procs, rfl, rfl, rfl, rfl, rfl, rfl⟩
    | some wfd0 =>
      try dsimp only
      rw [h6]
      try dsimp only
      cases hstep : c.step (if rc ≠ 0 then ResumeEvent.throwErr rc proc.cmdline proc.output
          else ResumeEvent.send proc.output) with
      | none =>
        refine ⟨_, _, rfl, getA_delA_self fd st.pidfdTab, ?_, ?_, ?_⟩
        · intro rfd hrf; cases hrf
        · intro wfd hwf
          cases hwf
          exact getA_delA_self wfd0 _
        · exact ⟨_, getA_setA_self pidI _ st.procs, rfl, rfl, rfl, rfl, rfl, rfl⟩
      | some sk =>
        refine ⟨_, _, rfl, getA_delA_self fd st.pidfdTab, ?_, ?_, ?_⟩
        · intro rfd hrf; cases hrf
        · intro wfd hwf
          cases hwf
          exact getA_delA_self wfd0 _
        · exact ⟨_, getA_setA_self pidI _ st.procs, rfl, rfl, rfl, rfl, rfl, rfl⟩
  | some rfd0 =>
    cases hw : proc.writefd with
    | none =>
      try dsimp only
      rw [h6]
      try dsimp only
      cases hstep : c.step (if rc ≠ 0 then ResumeEvent.throwErr rc proc.cmdline proc.output
          else ResumeEvent.send proc.output) with
      | none =>
        refine ⟨_, _, rfl, getA_delA_self fd st.pidfdTab, ?_, ?_, ?_⟩
        · intro rfd hrf
          cases hrf
          exact getA_delA_self rfd0 _
        · intro wfd hwf; cases hwf
        · exact ⟨_, getA_setA_self pidI _ st.procs, rfl, rfl, rfl, rfl, rfl, rfl⟩
      | some sk =>
        refine ⟨_, _, rfl, getA_delA_self fd st.pidfdTab, ?_, ?_, ?_⟩
        · intro rfd hrf
          cases hrf
          exact getA_delA_self rfd0 _
        · intro wfd hwf; cases hwf
        · exact ⟨_, getA_setA_self pidI _ st.procs, rfl, rfl, rfl, rfl, rfl, rfl⟩
    | some wfd0 =>
      try dsimp only
      rw [h6]
      try dsimp only
      cases hstep : c.step (if rc ≠ 0 then ResumeEvent.throwErr rc proc.cmdline proc.output
          else ResumeEvent.send proc.output) with
      | none =>
        refine ⟨_, _, rfl, getA_delA_self fd st.pidfdTab, ?_, ?_, ?_⟩
        · intro rfd hrf
          cases hrf
          exact getA_delA_self rfd0 _
        · intro wfd hwf
          cases hwf
          exact getA_delA_self wfd0 _
        · exact ⟨_, getA_setA_self pidI _ st.procs, rfl, rfl, rfl, rfl, rfl, rfl⟩
      | some sk =>
        refine ⟨_, _, rfl, getA_delA_self fd st.pidfdTab, ?_, ?_, ?_⟩
        · intro rfd hrf
          cases hrf
          exact getA_delA_self rfd0 _
        · intro wfd hwf
          cases hwf
          exact getA_delA_self wfd0 _
        · exact ⟨_, getA_setA_self pidI _ st.procs, rfl, rfl, rfl, rfl, rfl, rfl⟩

theorem keysOf_sublist {l l' : List (Nat × Nat)} (h : List.Sublist l' l) :
    List.Sublist (keysOf l') (keysOf l) :=
  h.map Prod.fst

theorem delA_sublist {α : Type} (k : Nat) (l : List (Nat × α)) :
    List.Sublist (delA k l) l :=
  List.filter_sublist l

/-- The registration invariant is monotone under shrinking all three
tables. -/
theorem RegInv_of_sublists {st st' : EL}
    (hp : List.Sublist st'.pidfdTab st.pidfdTab)
    (hr : List.Sublist st'.readfdTab st.readfdTab)
    (hw : List.Sublist st'.writefdTab st.writefdTab) (h : RegInv st) : RegInv st' := by
  obtain ⟨n1, n2, n3, d1, d2, d3⟩ := h
  refine ⟨n1.sublist (keysOf_sublist hp), n2.sublist (keysOf_sublist hr),
    n3.sublist (keysOf_sublist hw), ?_, ?_, ?_⟩
  · intro k hk1 hk2
    exact d1 k ((keysOf_sublist hp).subset hk1) ((keysOf_sublist hr).subset hk2)
  · intro k hk1 hk2
    exact d2 k ((keysOf_sublist hp).subset hk1) ((keysOf_sublist hw).subset hk2)
  · intro k hk1 hk2
    exact d3 k ((keysOf_sublist hr).subset hk1) ((keysOf_sublist hw).subset hk2)

/-- The read-readiness branch only ever deletes from the read table. -/
theorem readBranch_tabs {st st1 : EL} {fd : Nat} {rd : List Nat}
    (h : readBranch st fd rd = some st1) :
    st1.pidfdTab = st.pidfdTab ∧ List.Sublist st1.readfdTab st.readfdTab ∧
    st1.writefdTab = st.writefdTab := by
  unfold readBranch at h
  cases hg : getA fd st.readfdTab with
  | none =>
    rw [hg] at h
    cases h
    exact ⟨rfl, List.Sublist.refl _, rfl⟩
  | some pidI =>
    rw [hg] at h
    try dsimp only at h
    cases hg2 : getA fd st.pidfdTab with
    | some q =>
      rw [hg2] at h
      cases h
    | none =>
      rw [hg2] at h
      try dsimp only at h
      cases hp : getA pidI st.procs with
      | none =>
        rw [hp] at h
        cases h
      | some proc =>
        rw [hp] at h
        try dsimp only at h
        by_cases hc : proc.readfd = some fd
        · rw [if_pos hc] at h
          by_cases hrd : rd = []
          · rw [if_pos hrd] at h
            cases h
            exact ⟨rfl, delA_sublist fd st.readfdTab, rfl⟩
          · rw [if_neg hrd] at h
            cases h
            exact ⟨rfl, List.Sublist.refl _, rfl⟩
        · rw [if_neg hc] at h
          cases h

/-- The exit-readiness branch only ever deletes from the tables. -/
theorem exitBranch_tabs {st st' : EL} {fd : Nat} {rc : Int}
    {ev : Option ResumeEvent} {m : Option (Nat × ProcSpec × Coro)}
    (h : exitBranch st fd rc = some (st', ev, m)) :
    List.Sublist st'.pidfdTab st.pidfdTab ∧
    List.Sublist st'.readfdTab st.readfdTab ∧
    List.Sublist st'.writefdTab st.writefdTab := by
  unfold exitBranch at h
  cases hg : getA fd st.pidfdTab with
  | none =>
    rw [hg] at h
    simp only [Option.some.injEq, Prod.mk.injEq] at h
    obtain ⟨h1, _, _⟩ := h
    subst h1
    exact ⟨List.Sublist.refl _, List.Sublist.refl _, List.Sublist.refl _⟩
  | some pidI =>
    rw [hg] at h
    try dsimp only at h
    cases hg2 : getA fd st.readfdTab with
    | some q =>
      rw [hg2] at h
      cases h
    | none =>
      rw [hg2] at h
      try dsimp only at h
      cases hp : getA pidI st.procs with
      | none =>
        rw [hp] at h
        cases h
      | some proc =>
        rw [hp] at h
        try dsimp only at h
        by_cases hc : proc.pidfd = some fd
        · rw [if_pos hc] at h
          cases hr : proc.readfd with
          | none =>
            rw [hr] at h
            cases hw : proc.writefd with
            | none =>
              rw [hw] at h
              try dsimp only at h
              cases ht : proc.task with
              | none =>
                rw [ht] at h
                cases h
              | some tid =>
                rw [ht] at h
                try dsimp only at h
                cases htk : getA tid st.tasks with
                | none =>
                  rw [htk] at h
                  cases h
                | some oc =>
                  rw [htk] at h
                  cases oc with
                  | none => cases h
                  | some c =>
                    try dsimp only at h
                    cases hstep : c.step (if rc ≠ 0 then
                        ResumeEvent.throwErr rc proc.cmdline proc.output
                        else ResumeEvent.send proc.output) with
                    | none =>
                      rw [hstep] at h
                      simp only [Option.some.injEq, Prod.mk.injEq] at h
                      obtain ⟨h1, _, _⟩ := h
                      subst h1
                      exact ⟨delA_sublist _ _, List.Sublist.refl _, List.Sublist.refl _⟩
                    | some sk =>
                      rw [hstep] at h
                      simp only [Option.some.injEq, Prod.mk.injEq] at h
                      obtain ⟨h1, _, _⟩ := h
                      subst h1
                      exact ⟨delA_sublist _ _, List.Sublist.refl _, List.Sublist.refl _⟩
            | some wfd0 =>
              rw [hw] at h
              try dsimp only at h
              cases ht : proc.task with
              | none =>
                rw [ht] at h
                cases h
              | some tid =>
                rw [ht] at h
                try dsimp only at h
                cases htk : getA tid st.tasks with
                | none =>
                  rw [htk] at h
                  cases h
                | some oc =>
                  rw [htk] at h
                  cases oc with
                  | none => cases h
                  | some c =>
                    try dsimp only at h
                    cases hstep : c.step (if rc ≠ 0 then
                        ResumeEvent.throwErr rc proc.cmdline proc.output
                        else ResumeEvent.send proc.output) with
                    | none =>
                      rw [hstep] at h
                      simp only [Option.some.injEq, Prod.mk.injEq] at h
                      obtain ⟨h1, _, _⟩ := h
                      subst h1
                      exact ⟨delA_sublist _ _, List.Sublist.refl _, delA_sublist _ _⟩
                    | some sk =>
                      rw [hstep] at h
                      simp only [Option.some.injEq, Prod.mk.injEq] at h
                      obtain ⟨h1, _, _⟩ := h
                      subst h1
                      exact ⟨delA_sublist _ _, List.Sublist.refl _, delA_sublist _ _⟩
          | some rfd0 =>
            rw [hr] at h
            cases hw : proc.writefd with
            | none =>
              rw [hw] at h
              try dsimp only at h
              cases ht : proc.task with
              | none =>
                rw [ht] at h
                cases h
              | some tid =>
                rw [ht] at h
                try dsimp only at h
                cases htk : getA tid st.tasks with
                | none =>
                  rw [htk] at h
                  cases h
                | some oc =>
                  rw [htk] at h
                  cases oc with
                  | none => cases h
                  | some c =>
                    try dsimp only at h
                    cases hstep : c.step (if rc ≠ 0 then
                        ResumeEvent.throwErr rc proc.cmdline proc.output
                        else ResumeEvent.send proc.output) with
                    | none =>
                      rw [hstep] at h
                      simp only [Option.some.injEq, Prod.mk.injEq] at h
                      obtain ⟨h1, _, _⟩ := h
                      subst h1
                      exact ⟨delA_sublist _ _, delA_sublist _ _, List.Sublist.refl _⟩
                    | some sk =>
                      rw [hstep] at h
                      simp only [Option.some.injEq, Prod.mk.injEq] at h
                      obtain ⟨h1, _, _⟩ := h
                      subst h1
                      exact ⟨delA_sublist _ _, delA_sublist _ _, List.Sublist.refl _⟩
            | some wfd0 =>
              rw [hw] at h
              try dsimp only at h
              cases ht : proc.task with
              | none =>
                rw [ht] at h
                cases h
              | some tid =>
                rw [ht] at h
                try dsimp only at h
                cases htk : getA tid st.tasks with
                | none =>
                  rw [htk] at h
                  cases h
                | some oc =>
                  rw [htk] at h
                  cases oc with
                  | none => cases h
                  | some c =>
                    try dsimp only at h
                    cases hstep : c.step (if rc ≠ 0 then
                        ResumeEvent.throwErr rc proc.cmdline proc.output
                        else ResumeEvent.send proc.output) with
                    | none =>
                      rw [hstep] at h
                      simp only [Option.some.injEq, Prod.mk.injEq] at h
                      obtain ⟨h1, _, _⟩ := h
                      subst h1
                      exact ⟨delA_sublist _ _, delA_sublist _ _, delA_sublist _ _⟩
                    | some sk =>
                      rw [hstep] at h
                      simp only [Option.some.injEq, Prod.mk.injEq] at h
                      obtain ⟨h1, _, _⟩ := h
                      subst h1
                      exact ⟨delA_sublist _ _, delA_sublist _ _, delA_sublist _ _⟩
        · rw [if_neg hc] at h
          cases h

/-- The handler `can_write` only ever deletes from the write table. -/
theorem can_write_tabs {st st' : EL} {fd w : Nat}
    (h : can_write st fd w = some st') :
    st'.pidfdTab = st.pidfdTab ∧ st'.readfdTab = st.readfdTab ∧
    List.Sublist st'.writefdTab st.writefdTab := by
  unfold can_write at h
  cases hg : getA fd st.writefdTab with
  | none =>
    rw [hg] at h
    cases h
  | some pidI =>
    rw [hg] at h
    try dsimp only at h
    cases hp : getA pidI st.procs with
    | none =>
      rw [hp] at h
      cases h
    | some proc =>
      rw [hp] at h
      try dsimp only at h
      by_cases hc : proc.writefd = some fd
      · rw [if_pos hc] at h
        cases hi : proc.input with
        | none =>
          rw [hi] at h
          cases h
        | some inp =>
          rw [hi] at h
          try dsimp only at h
          by_cases hw0 : w = 0
          · rw [if_pos hw0] at h
            cases h
          · rw [if_neg hw0] at h
            try dsimp only at h
            by_cases hrest : inp.drop w = []
            · rw [if_pos hrest] at h
              cases h
              exact ⟨rfl, rfl, delA_sublist fd st.writefdTab⟩
            · rw [if_neg hrest] at h
              cases h
              exact ⟨rfl, rfl, List.Sublist.refl _⟩
      · rw [if_neg hc] at h
        cases h

theorem keysOf_setA (k v : Nat) (l : List (Nat × Nat)) :
    keysOf (setA k v l) = k :: keysOf (delA k l) := rfl

theorem mem_keysOf_delA {a k : Nat} {l : List (Nat × Nat)} :
    a ∈ keysOf (delA k l) ↔ a ∈ keysOf l ∧ a ≠ k := by
  simp only [keysOf, delA, List.mem_map, List.mem_filter]
  constructor
  · rintro ⟨p, ⟨hp, hd⟩, rfl⟩
    refine ⟨⟨p, hp, rfl⟩, ?_⟩
    simpa using hd
  · rintro ⟨⟨p, hp, rfl⟩, hne⟩
    exact ⟨p, ⟨hp, by simpa using hne⟩, rfl⟩

theorem nodup_keysOf_setA {k v : Nat} {l : List (Nat × Nat)}
    (h : (keysOf l).Nodup) : (keysOf (setA k v l)).Nodup := by
  rw [keysOf_setA, List.nodup_cons]
  exact ⟨fun hm => (mem_keysOf_delA.1 hm).2 rfl,
    h.sublist (keysOf_sublist (delA_sublist k l))⟩

/-- Inserting fresh keys into two disjoint tables keeps them disjoint. -/
theorem disj_setA {k1 k2 v1 v2 : Nat} {l1 l2 : List (Nat × Nat)}
    (hd : ∀ a, a ∈ keysOf l1 → a ∉ keysOf l2)
    (h12 : k1 ≠ k2) (h1 : k1 ∉ keysOf l2) (h2 : k2 ∉ keysOf l1) :
    ∀ a, a ∈ keysOf (setA k1 v1 l1) → a ∉ keysOf (setA k2 v2 l2) := by
  intro a ha hb
  rw [keysOf_setA] at ha hb
  rcases List.mem_cons.1 ha with rfl | ha'
  · rcases List.mem_cons.1 hb with h | hb'
    · exact h12 h
    · exact h1 (mem_keysOf_delA.1 hb').1
  · obtain ⟨ha1, _⟩ := mem_keysOf_delA.1 ha'
    rcases List.mem_cons.1 hb with rfl | hb'
    · exact h2 ha1
    · exact hd a ha1 (mem_keysOf_delA.1 hb').1

/-- Inserting a fresh key on the left keeps disjointness with an unchanged
table. -/
theorem disj_setA_left {k1 v1 : Nat} {l1 l2 : List (Nat × Nat)}
    (hd : ∀ a, a ∈ keysOf l1 → a ∉ keysOf l2)
    (h1 : k1 ∉ keysOf l2) :
    ∀ a, a ∈ keysOf (setA k1 v1 l1) → a ∉ keysOf l2 := by
  intro a ha
  rw [keysOf_setA] at ha
  rcases List.mem_cons.1 ha with rfl | ha'
  · exact h1
  · exact hd a (mem_keysOf_delA.1 ha').1

theorem not_mem_allFds {x : Nat} {st : EL} (h : x ∉ allFds st) :
    x ∉ keysOf st.pidfdTab ∧ x ∉ keysOf st.readfdTab ∧ x ∉ keysOf st.writefdTab := by
  simp only [allFds, List.mem_append, not_or] at h
  exact ⟨h.1.1, h.1.2, h.2⟩

/-- Mounting a process with OS-fresh descriptors preserves the
registration invariant. -/
theorem mountProc_reginv {st : EL} {spec : ProcSpec} (tid : Nat)
    (h : RegInv st) (hf : FreshSpec spec st) : RegInv (mountProc st spec tid) := by
  obtain ⟨n1, n2, n3, d1, d2, d3⟩ := h
  obtain ⟨f1, f2, f3, f4⟩ := hf
  obtain ⟨f1p, f1r, f1w⟩ := not_mem_allFds f1
  obtain ⟨f2p, f2r, f2w⟩ := not_mem_allFds f2
  cases hwf : spec.writefd with
  | none =>
    unfold mountProc RegInv
    rw [hwf]
    dsimp only
    exact ⟨nodup_keysOf_setA n1, nodup_keysOf_setA n2, n3,
      disj_setA d1 f3 f1r f2p, disj_setA_left d2 f1w, disj_setA_left d3 f2w⟩
  | some w =>
    obtain ⟨f4a, f4p, f4r⟩ := f4 w hwf
    obtain ⟨f4wp, f4wr, f4ww⟩ := not_mem_allFds f4a
    unfold mountProc RegInv
    rw [hwf]
    dsimp only
    exact ⟨nodup_keysOf_setA n1, nodup_keysOf_setA n2, nodup_keysOf_setA n3,
      disj_setA d1 f3 f1r f2p,
      disj_setA d2 (Ne.symm f4p) f1w f4wp,
      disj_setA d3 (Ne.symm f4r) f2w f4wr⟩

/-- Mounting via `create_task` with OS-fresh descriptors preserves the registration
invariant. -/
theorem create_task_reginv {st : EL} {spec : ProcSpec} {k : Coro}
    (h : RegInv st) (hf : FreshSpec spec st) :
    RegInv (create_task st (some (spec, k))) := by
  unfold create_task
  dsimp only
  exact mountProc_reginv _ h hf

/-- C8: in every event-loop state reachable by mounting processes
(`create_task`, remounting on resume) and by the readiness-handling
steps, within each descriptor table the keys are distinct and the three
tables have pairwise disjoint key sets: an exit-notification descriptor
is never simultaneously a read-waiter, and each descriptor has exactly
one owning registration at a time. -/
theorem event_loop_registration_disjoint (st : EL) (h : Reach st) : RegInv st := by
  induction h with
  | init =>
    refine ⟨List.nodup_nil, List.nodup_nil, List.nodup_nil, ?_, ?_, ?_⟩ <;>
      (intro k hk; cases hk)
  | create st spec k hr hf ih => exact create_task_reginv ih hf
  | create_stop st hr ih => exact ih
  | read_nomount st st' fd rd rc ev hr hcr ih =>
    obtain ⟨st1, hrb, hex⟩ : ∃ st1, readBranch st fd rd = some st1 ∧
        exitBranch st1 fd rc = some (st', ev, none) := by
      unfold canReadAux at hcr
      cases hrb : readBranch st fd rd with
      | none =>
        rw [hrb] at hcr
        cases hcr
      | some st1 =>
        rw [hrb] at hcr
        exact ⟨st1, rfl, hcr⟩
    obtain ⟨e1, s1, e2⟩ := readBranch_tabs hrb
    obtain ⟨t1, t2, t3⟩ := exitBranch_tabs hex
    exact RegInv_of_sublists (e1 ▸ t1) (t2.trans s1) (e2 ▸ t3) ih
  | read_mount st st' fd rd rc ev tid spec k hr hcr hf ih =>
    have hinv : RegInv st' := by
      obtain ⟨st1, hrb, hex⟩ : ∃ st1, readBranch st fd rd = some st1 ∧
          exitBranch st1 fd rc = some (st', ev, some (tid, spec, k)) := by
        unfold canReadAux at hcr
        cases hrb : readBranch st fd rd with
        | none =>
          rw [hrb] at hcr
          cases hcr
        | some st1 =>
          rw [hrb] at hcr
          exact ⟨st1, rfl, hcr⟩
      obtain ⟨e1, s1, e2⟩ := readBranch_tabs hrb
      obtain ⟨t1, t2, t3⟩ := exitBranch_tabs hex
      exact RegInv_of_sublists (e1 ▸ t1) (t2.trans s1) (e2 ▸ t3) ih
    exact mountProc_reginv tid hinv hf
  | write st st' fd w hr hcw ih =>
    obtain ⟨e1, e2, s3⟩ := can_write_tabs hcw
    exact RegInv_of_sublists (by rw [e1]) (by rw [e2]) s3 ih

/-- Witness for C8: the empty loop is reachable and satisfies the
registration invariant. -/
theorem event_loop_registration_disjoint_witness : RegInv EL.empty :=
  event_loop_registration_disjoint EL.empty Reach.init

/-- A concrete mounted process used to witness C4. -/
def procW : Process :=
  { cmdline := ["true"], input := none, output := [65], pidfd := some 5,
    readfd := some 6, writefd := none, task := some 0 }

/-- A concrete coroutine (stops on its next resumption) used to witness
C4. -/
def coroW : Coro := Coro.mk (fun _ => none)

/-- A concrete event-loop state with one mounted process, used to witness
C4. -/
def stW : EL :=
  { pidfdTab := [(5, 0)], readfdTab := [(6, 0)], writefdTab := [],
    procs := [(0, procW)], tasks := [(0, some coroW)], nextProc := 1, nextTask := 1 }

/-- Witness for C4: exit readiness on descriptor 5 of the concrete loop
resumes the waiting task once with the captured output and unregisters
the exit descriptor. -/
theorem can_read_exit_resumes_once_witness :
    (getA 5 stW.readfdTab = none ∧ getA 5 stW.pidfdTab = some 0 ∧
     procW.pidfd = some 5) ∧
    ∃ (st' : EL) (m : Option (Nat × ProcSpec × Coro)),
      canReadAux stW 5 [] 0 =
        some (st', some (ResumeEvent.send procW.output), m) ∧
      getA 5 st'.pidfdTab = none := by
  refine ⟨⟨rfl, rfl, rfl⟩, ?_⟩
  obtain ⟨st', m, heq, hpid, -, -, -⟩ :=
    can_read_exit_resumes_once stW 5 [] 0 0 procW 0 coroW rfl rfl rfl rfl rfl rfl
  exact ⟨st', m, by simpa using heq, hpid⟩

/-- Witness for C7: the fresh screen is invariant and stays so after a
keystroke. -/
theorem miniscreen_cursor_invariant_witness :
    CursorInv MiniScreen.init ∧ CursorInv (hk MiniScreen.init "a") :=
  ⟨(miniscreen_cursor_invariant MiniScreen.init (by constructor <;> decide)).1,
   (miniscreen_cursor_invariant MiniScreen.init
     (by constructor <;> decide)).2.2.2.2.2 "a"⟩

end Miniscreen
